import Mathlib

/-
  Shallow embedding of the TaskSchedulerHW scheduling services.

  Sources:
    src/fifo/scheduler.py          (FIFO long-poll scheduler)        -> namespace Fifo
    src/priority/scheduler.py      (non-preemptive priority)         -> namespace Prio
    src/round-robin/scheduler.py   (round robin with arrivals)      -> namespace RR
    src/scheduler.py               (root round-robin variant)        -> namespace RRoot

  Modelling conventions:
    - Python dicts are association lists with last-write-wins insert that
      keeps the original position of an overwritten key, as CPython does.
    - Wall and simulated clocks are integer milliseconds; the float speedup
      factor and wall durations measured in seconds are exact rationals.
    - Python round() (round half to even) is pyRound.
    - Each HTTP handler is a step function from the current ACTIVE_RUN, the
      request, and the ambient clock readings to a response and the new
      ACTIVE_RUN.  A raised HTTPException with status 400 is an explicit
      response constructor; an exception that no handler catches (for
      example the ValueError raised by load_jobs) is the uncaught
      constructor, since FastAPI surfaces it as an internal server error,
      not as HTTP 400.
    - The long-poll loop inside the next handlers is modelled one iteration
      at a time: remaining_s is the caller deadline minus the current wall
      time in seconds, and the block response records the timeout the
      iteration would pass to the condition-variable wait.
-/

namespace TaskSched

/-- Rounding half to even of an exact rational, as Python round() does on
    the corresponding real value. -/
def pyRound (q : ℚ) : Int :=
  let f : Int := ⌊q⌋
  let frac : ℚ := q - (f : ℚ)
  if frac < 1/2 then f
  else if 1/2 < frac then f + 1
  else if f % 2 = 0 then f else f + 1

/-- Lookup in a Python dict modelled as an association list. -/
def dictGet {α : Type} : List (String × α) → String → Option α
  | [], _ => none
  | (k, v) :: rest, key => if k = key then some v else dictGet rest key

/-- Insertion into a Python dict: overwrite in place if the key exists,
    append at the end otherwise. -/
def dictInsert {α : Type} : List (String × α) → String → α → List (String × α)
  | [], key, v => [(key, v)]
  | (k, w) :: rest, key, v =>
      if k = key then (key, v) :: rest else (k, w) :: dictInsert rest key v

-- ---------------------------------------------------------------
-- Worker registry (identical code in all four scheduler variants)
-- ---------------------------------------------------------------

namespace Registry

structure WorkerInfo where
  cores : Int
  last_seen : ℚ
deriving Repr, DecidableEq

/-- Embedding of is_alive_worker_core: the worker is known, fresh within
    the timeout window, and the core index is in range. -/
def isAliveWorkerCore (timeout : ℚ) (ws : List (String × WorkerInfo))
    (now : ℚ) (worker_id : String) (core_id : Int) : Bool :=
  match dictGet ws worker_id with
  | none => false
  | some info =>
      if timeout < now - info.last_seen then false
      else decide (0 ≤ core_id ∧ core_id < info.cores)

/-- Embedding of total_alive_slots: sum of core counts of workers seen
    within the timeout window. -/
def totalAliveSlots (timeout : ℚ) (ws : List (String × WorkerInfo))
    (now : ℚ) : Int :=
  (ws.filter (fun p => decide (now - p.2.last_seen ≤ timeout))).foldl
    (fun acc p => acc + p.2.cores) 0

end Registry

-- ---------------------------------------------------------------
-- Datasets (the part of the CSV the loaders read)
-- ---------------------------------------------------------------

/-- One parsed CSV row.  Field values are meaningful only when the
    corresponding column exists in the dataset; a loader never reads a
    column it has not checked or defaulted. -/
structure CsvRow where
  job_id : String
  service_time_ms : Int
  arrival_time_ms : Int
  priority : Int
deriving Repr, DecidableEq

/-- A parsed CSV file: which columns are present, and the rows in file
    order. -/
structure Dataset where
  hasJobIdCol : Bool
  hasServiceCol : Bool
  hasArrivalCol : Bool
  hasPriorityCol : Bool
  rows : List CsvRow
deriving Repr, DecidableEq

-- ---------------------------------------------------------------
-- FIFO scheduler (src/fifo/scheduler.py)
-- ---------------------------------------------------------------

namespace Fifo

structure JobState where
  job_id : String
  service_ms : Int
  arrival_ms : Int
  start_ms : Option Int := none
  finish_ms : Option Int := none
deriving Repr, DecidableEq

structure RunState where
  run_id : String
  dataset_file : String
  speedup : ℚ
  start_wall_ms : Int
  jobs : List (String × JobState)
  ready_q : List String
  pending_jobs : List (String × JobState)
  total_jobs : Nat
  current_sim_ms : Int := 0
  completed : Nat := 0
  done : Bool := false
deriving Repr, DecidableEq

/-- Embedding of wall_to_sim. -/
def wallToSim (run : RunState) (wall_ms : Int) : Int :=
  pyRound (((wall_ms - run.start_wall_ms : Int) : ℚ) * run.speedup)

/-- Embedding of load_jobs: require job_id and service_time_ms columns,
    default arrival_time_ms to 0 when that column is absent.  The error
    case is the ValueError the Python code raises. -/
def loadJobs (d : Dataset) : Except String (List (String × JobState)) :=
  if ¬ (d.hasJobIdCol ∧ d.hasServiceCol) then
    .error "Dataset must contain at least job_id and service_time_ms"
  else
    .ok (d.rows.foldl
      (fun m row =>
        dictInsert m row.job_id
          { job_id := row.job_id
            service_ms := row.service_time_ms
            arrival_ms := if d.hasArrivalCol then row.arrival_time_ms else 0 })
      [])

/-- One output row of finalize_run, ignoring the resource-usage columns. -/
structure ResultRow where
  job_id : String
  arrival_time_ms : Int
  service_time_ms : Int
  start_time_ms : Int
  finish_time_ms : Int
  waiting_time_ms : Int
  execution_time_ms : Int
  response_time_ms : Int
  slowdown : ℚ
deriving Repr, DecidableEq

/-- The per-job rows finalize_run computes: jobs that never got both a
    start and a finish stamp are skipped. -/
def resultRows (jobs : List (String × JobState)) : List ResultRow :=
  jobs.filterMap fun p =>
    match p.2.start_ms, p.2.finish_ms with
    | some s, some f =>
        some { job_id := p.2.job_id
               arrival_time_ms := p.2.arrival_ms
               service_time_ms := p.2.service_ms
               start_time_ms := s
               finish_time_ms := f
               waiting_time_ms := s - p.2.arrival_ms
               execution_time_ms := f - s
               response_time_ms := f - p.2.arrival_ms
               slowdown := ((f - p.2.arrival_ms : Int) : ℚ) /
                 (max 1 (p.2.service_ms) : Int) }
    | _, _ => none

/-- Embedding of finalize_run: when no job has both stamps the function
    returns before setting the done flag; the CSV writing and the summary
    statistics carry no further run state and are omitted. -/
def finalizeRun (run : RunState) : RunState × List ResultRow :=
  let rows := resultRows run.jobs
  if rows.length = 0 then (run, rows)
  else ({ run with done := true }, rows)

inductive NextResp where
  | http400
  | noRun
  | runDone
  | ok (job_id : String) (execution_ms : Int)
  | waitTimeout
  | keyError
  | block (wait_s : ℚ)
deriving Repr, DecidableEq

/-- One iteration of the long-poll loop in the next_job handler.  The
    FIFO variant performs no arrivals promotion here; only the background
    arrival thread moves pending jobs. -/
def nextStep (active : Option RunState) (remaining_s : ℚ) :
    NextResp × Option RunState :=
  match active with
  | none => (.noRun, none)
  | some run =>
      if run.done ∨ run.completed ≥ run.total_jobs then (.runDone, some run)
      else
        match run.ready_q with
        | jid :: rest =>
            match dictGet run.jobs jid with
            | some job => (.ok jid job.service_ms, some { run with ready_q := rest })
            | none => (.keyError, some run)
        | [] =>
            if remaining_s ≤ 0 then (.waitTimeout, some run)
            else (.block remaining_s, some run)

/-- The next_job handler: liveness guard, then the loop body. -/
def nextJob (timeout : ℚ) (ws : List (String × Registry.WorkerInfo))
    (now : ℚ) (worker_id : String) (core_id : Int)
    (active : Option RunState) (remaining_s : ℚ) :
    NextResp × Option RunState :=
  if Registry.isAliveWorkerCore timeout ws now worker_id core_id then
    nextStep active remaining_s
  else (.http400, active)

structure DoneReq where
  job_id : String
  started_wall_ms : Int
  finished_wall_ms : Int
deriving Repr, DecidableEq

inductive DoneResp where
  | http400
  | noRun
  | runDone
  | unknownJob
  | ok
deriving Repr, DecidableEq

/-- Embedding of the done handler body (after the liveness guard).  The
    finish stamp is the recorded start plus the nominal service time; the
    reported finish wall time is converted but never used for the stamp. -/
def doneStep (active : Option RunState) (req : DoneReq) :
    DoneResp × Option RunState :=
  match active with
  | none => (.noRun, none)
  | some run =>
      if run.done then (.runDone, some run)
      else
        match dictGet run.jobs req.job_id with
        | none => (.unknownJob, some run)
        | some job =>
            let started_sim := wallToSim run req.started_wall_ms
            let start_ms :=
              match job.start_ms with
              | none => started_sim
              | some s => s
            let finish_ms := start_ms + job.service_ms
            let job1 : JobState :=
              { job with start_ms := some start_ms, finish_ms := some finish_ms }
            let run1 : RunState :=
              { run with
                  jobs := dictInsert run.jobs req.job_id job1
                  current_sim_ms := max run.current_sim_ms finish_ms
                  completed := run.completed + 1 }
            if run1.completed ≥ run1.total_jobs then
              (.ok, some (finalizeRun run1).1)
            else
              (.ok, some run1)

/-- The done handler: liveness guard, then the body. -/
def doneCall (timeout : ℚ) (ws : List (String × Registry.WorkerInfo))
    (now : ℚ) (worker_id : String) (core_id : Int)
    (active : Option RunState) (req : DoneReq) :
    DoneResp × Option RunState :=
  if Registry.isAliveWorkerCore timeout ws now worker_id core_id then
    doneStep active req
  else (.http400, active)

structure StartReq where
  dataset_file : String
  speedup : ℚ
  min_slots : Int
deriving Repr, DecidableEq

inductive StartResp where
  | ok (run_id : String)
  | http400 (msg : String)
  | uncaught (msg : String)
deriving Repr, DecidableEq

/-- Embedding of the start handler.  fileOnDisk is none when the dataset
    path does not exist, some (.error e) when pandas fails to parse the
    file, and some (.ok d) for a parsed CSV.  Note that the handler does
    not catch the ValueError of load_jobs (nor a parse failure), so those
    escape as uncaught exceptions rather than HTTP 400 replies. -/
def startStep (timeout : ℚ) (ws : List (String × Registry.WorkerInfo))
    (now : ℚ) (req : StartReq)
    (fileOnDisk : Option (Except String Dataset))
    (new_run_id : String) (now_wall_ms : Int)
    (active : Option RunState) : StartResp × Option RunState :=
  let slots := Registry.totalAliveSlots timeout ws now
  if slots < req.min_slots then (.http400 "Not enough slots online", active)
  else
    match fileOnDisk with
    | none => (.http400 "Dataset not found", active)
    | some (.error e) => (.uncaught e, active)
    | some (.ok d) =>
        match loadJobs d with
        | .error e => (.uncaught e, active)
        | .ok jobs =>
            let ready_q := (jobs.filter (fun p => p.2.arrival_ms ≤ 0)).map Prod.fst
            let pending := jobs.filter (fun p => ¬ (p.2.arrival_ms ≤ 0))
            let run : RunState :=
              { run_id := new_run_id
                dataset_file := req.dataset_file
                speedup := req.speedup
                start_wall_ms := now_wall_ms
                jobs := jobs
                ready_q := ready_q
                pending_jobs := pending
                total_jobs := jobs.length }
            (.ok new_run_id, some run)

end Fifo

-- ---------------------------------------------------------------
-- Priority scheduler (src/priority/scheduler.py)
-- ---------------------------------------------------------------

namespace Prio

structure JobState where
  job_id : String
  service_ms : Int
  arrival_ms : Int
  priority : Int
  start_ms : Option Int := none
  finish_ms : Option Int := none
deriving Repr, DecidableEq

/-- One tuple of the ready heap: (priority, arrival_ms, seq, job_id). -/
structure HeapEntry where
  priority : Int
  arrival : Int
  seq : Nat
  jid : String
deriving Repr, DecidableEq

/-- One tuple of the pending heap: (arrival_ms, seq, job_id). -/
structure PendEntry where
  arrival : Int
  seq : Nat
  jid : String
deriving Repr, DecidableEq

structure RunState where
  run_id : String
  dataset_file : String
  speedup : ℚ
  start_wall_ms : Int
  jobs : List (String × JobState)
  ready_heap : List HeapEntry
  pending_heap : List PendEntry
  next_seq : Nat
  total_jobs : Nat
  current_sim_ms : Int := 0
  completed : Nat := 0
  done : Bool := false
deriving Repr, DecidableEq

/-- Python tuple comparison on ready-heap entries: lexicographic on
    (priority, arrival, seq, jid).  The string component is compared only
    when the first three agree, which cannot happen for two distinct
    entries because seq is allocated by a monotone counter. -/
def entryLE (x y : HeapEntry) : Bool :=
  if x.priority ≠ y.priority then decide (x.priority < y.priority)
  else if x.arrival ≠ y.arrival then decide (x.arrival < y.arrival)
  else if x.seq ≠ y.seq then decide (x.seq < y.seq)
  else ! decide (y.jid < x.jid)

/-- Python tuple comparison on pending-heap entries. -/
def pendLE (x y : PendEntry) : Bool :=
  if x.arrival ≠ y.arrival then decide (x.arrival < y.arrival)
  else if x.seq ≠ y.seq then decide (x.seq < y.seq)
  else ! decide (y.jid < x.jid)

/-- Extraction of a minimal element, the abstraction of heapq.heappop on a
    list holding the heap contents. -/
def popMinReady : List HeapEntry → Option (HeapEntry × List HeapEntry)
  | [] => none
  | e :: rest =>
      match popMinReady rest with
      | none => some (e, [])
      | some (m, rest1) =>
          if entryLE e m then some (e, rest) else some (m, e :: rest1)

/-- Extraction of a minimal pending entry, abstracting heapq.heappop. -/
def popMinPend : List PendEntry → Option (PendEntry × List PendEntry)
  | [] => none
  | e :: rest =>
      match popMinPend rest with
      | none => some (e, [])
      | some (m, rest1) =>
          if pendLE e m then some (e, rest) else some (m, e :: rest1)

theorem popMinPend_none_iff (l : List PendEntry) :
    popMinPend l = none ↔ l = [] := by
  cases l with
  | nil => simp [popMinPend]
  | cons e rest =>
      simp only [popMinPend]
      cases h : popMinPend rest with
      | none => simp
      | some p =>
          obtain ⟨m, rest1⟩ := p
          by_cases hle : pendLE e m <;> simp [hle]

theorem popMinPend_length {l : List PendEntry} {e : PendEntry}
    {rest : List PendEntry} (h : popMinPend l = some (e, rest)) :
    rest.length + 1 = l.length := by
  induction l generalizing e rest with
  | nil => simp [popMinPend] at h
  | cons a tl ih =>
      simp only [popMinPend] at h
      cases htl : popMinPend tl with
      | none =>
          rw [htl] at h
          simp only [Option.some.injEq, Prod.mk.injEq] at h
          obtain ⟨rfl, rfl⟩ := h
          have htl0 : tl = [] := (popMinPend_none_iff tl).mp htl
          subst htl0
          rfl
      | some p =>
          obtain ⟨m, rest1⟩ := p
          rw [htl] at h
          by_cases hle : pendLE a m
          · simp only [hle, if_true, Option.some.injEq, Prod.mk.injEq] at h
            obtain ⟨rfl, rfl⟩ := h
            rfl
          · simp only [hle, if_false, Option.some.injEq, Prod.mk.injEq] at h
            obtain ⟨rfl, rfl⟩ := h
            have := ih htl
            simp at this ⊢
            omega

theorem popMinReady_none_iff (l : List HeapEntry) :
    popMinReady l = none ↔ l = [] := by
  cases l with
  | nil => simp [popMinReady]
  | cons e rest =>
      simp only [popMinReady]
      cases h : popMinReady rest with
      | none => simp
      | some p =>
          obtain ⟨m, rest1⟩ := p
          by_cases hle : entryLE e m <;> simp [hle]

theorem popMinReady_length {l : List HeapEntry} {e : HeapEntry}
    {rest : List HeapEntry} (h : popMinReady l = some (e, rest)) :
    rest.length + 1 = l.length := by
  induction l generalizing e rest with
  | nil => simp [popMinReady] at h
  | cons a tl ih =>
      simp only [popMinReady] at h
      cases htl : popMinReady tl with
      | none =>
          rw [htl] at h
          simp only [Option.some.injEq, Prod.mk.injEq] at h
          obtain ⟨rfl, rfl⟩ := h
          have htl0 : tl = [] := (popMinReady_none_iff tl).mp htl
          subst htl0
          rfl
      | some p =>
          obtain ⟨m, rest1⟩ := p
          rw [htl] at h
          by_cases hle : entryLE a m
          · simp only [hle, if_true, Option.some.injEq, Prod.mk.injEq] at h
            obtain ⟨rfl, rfl⟩ := h
            rfl
          · simp only [hle, if_false, Option.some.injEq, Prod.mk.injEq] at h
            obtain ⟨rfl, rfl⟩ := h
            have := ih htl
            simp at this ⊢
            omega

/-- The order the spec describes for the priority policy: lexicographic on
    (priority, arrival, sequence). -/
def lex3LE (x y : HeapEntry) : Prop :=
  x.priority < y.priority ∨ (x.priority = y.priority ∧
    (x.arrival < y.arrival ∨ (x.arrival = y.arrival ∧ x.seq ≤ y.seq)))

theorem lex3LE_refl (x : HeapEntry) : lex3LE x x := by
  unfold lex3LE; omega

theorem lex3LE_trans {x y z : HeapEntry}
    (h1 : lex3LE x y) (h2 : lex3LE y z) : lex3LE x z := by
  unfold lex3LE at *; omega

theorem entryLE_imp {x y : HeapEntry} (h : entryLE x y = true) :
    lex3LE x y := by
  unfold entryLE at h
  unfold lex3LE
  by_cases h1 : x.priority = y.priority
  · by_cases h2 : x.arrival = y.arrival
    · by_cases h3 : x.seq = y.seq
      · omega
      · simp only [h1, h2, ne_eq, not_true_eq_false, if_false, h3,
          not_false_eq_true, if_true, decide_eq_true_eq] at h
        omega
    · simp only [h1, ne_eq, not_true_eq_false, if_false, h2,
        not_false_eq_true, if_true, decide_eq_true_eq] at h
      omega
  · simp only [ne_eq, h1, not_false_eq_true, if_true, decide_eq_true_eq] at h
    omega

theorem entryLE_false_imp {x y : HeapEntry} (h : entryLE x y = false) :
    lex3LE y x := by
  unfold entryLE at h
  unfold lex3LE
  by_cases h1 : x.priority = y.priority
  · by_cases h2 : x.arrival = y.arrival
    · by_cases h3 : x.seq = y.seq
      · omega
      · simp only [h1, h2, ne_eq, not_true_eq_false, if_false, h3,
          not_false_eq_true, if_true, decide_eq_false_iff_not] at h
        omega
    · simp only [h1, ne_eq, not_true_eq_false, if_false, h2,
        not_false_eq_true, if_true, decide_eq_false_iff_not] at h
      omega
  · simp only [ne_eq, h1, not_false_eq_true, if_true,
      decide_eq_false_iff_not] at h
    omega

/-- The popped entry is minimal for the (priority, arrival, sequence)
    lexicographic order among everything that was in the heap. -/
theorem popMinReady_le {l : List HeapEntry} {e : HeapEntry}
    {rest : List HeapEntry} (h : popMinReady l = some (e, rest)) :
    ∀ x ∈ l, lex3LE e x := by
  induction l generalizing e rest with
  | nil => simp [popMinReady] at h
  | cons a tl ih =>
      simp only [popMinReady] at h
      cases htl : popMinReady tl with
      | none =>
          rw [htl] at h
          simp only [Option.some.injEq, Prod.mk.injEq] at h
          obtain ⟨rfl, rfl⟩ := h
          have htl0 : tl = [] := (popMinReady_none_iff tl).mp htl
          subst htl0
          intro x hx
          simp only [List.mem_singleton] at hx
          subst hx
          exact lex3LE_refl _
      | some p =>
          obtain ⟨m, rest1⟩ := p
          rw [htl] at h
          cases hle : entryLE a m with
          | true =>
              simp only [hle, if_true, Option.some.injEq, Prod.mk.injEq] at h
              obtain ⟨rfl, rfl⟩ := h
              intro x hx
              rcases List.mem_cons.mp hx with rfl | hx
              · exact lex3LE_refl x
              · exact lex3LE_trans (entryLE_imp hle) (ih htl x hx)
          | false =>
              simp only [hle, Bool.false_eq_true, if_false, Option.some.injEq,
                Prod.mk.injEq] at h
              obtain ⟨rfl, rfl⟩ := h
              intro x hx
              rcases List.mem_cons.mp hx with rfl | hx
              · exact entryLE_false_imp hle
              · exact ih htl x hx

/-- Embedding of wall_to_sim. -/
def wallToSim (run : RunState) (wall_ms : Int) : Int :=
  pyRound (((wall_ms - run.start_wall_ms : Int) : ℚ) * run.speedup)

/-- Embedding of push_ready: read the job record, push the heap tuple,
    advance the sequence counter.  A missing job id would raise a KeyError
    in Python; the model substitutes an inert record, and every theorem
    about promotion assumes the id resolves. -/
def pushReady (run : RunState) (job_id : String) : RunState :=
  let job := (dictGet run.jobs job_id).getD
    { job_id := job_id, service_ms := 0, arrival_ms := 0, priority := 0 }
  { run with
      ready_heap :=
        { priority := job.priority, arrival := job.arrival_ms
          seq := run.next_seq, jid := job_id } :: run.ready_heap
      next_seq := run.next_seq + 1 }

theorem pushReady_pending (run : RunState) (job_id : String) :
    (pushReady run job_id).pending_heap = run.pending_heap := rfl

/-- Embedding of promote_arrivals: while the pending minimum has arrived,
    pop it and push it onto the ready heap. -/
def promoteArrivals (run : RunState) (upto : Int) : RunState :=
  match h : popMinPend run.pending_heap with
  | none => run
  | some (e, rest) =>
      if e.arrival ≤ upto then
        promoteArrivals (pushReady { run with pending_heap := rest } e.jid) upto
      else run
termination_by run.pending_heap.length
decreasing_by
  have hlen := popMinPend_length h
  simp only [pushReady]
  omega

theorem promoteArrivals_nil (run : RunState) (upto : Int)
    (h : run.pending_heap = []) : promoteArrivals run upto = run := by
  rw [promoteArrivals]
  have hnone : popMinPend run.pending_heap = none := by
    rw [h]; rfl
  rw [hnone]

/-- Embedding of load_jobs: job_id, service_time_ms and priority columns
    are required; arrival_time_ms defaults to 0 when absent. -/
def loadJobs (d : Dataset) : Except String (List (String × JobState)) :=
  if ¬ (d.hasJobIdCol ∧ d.hasServiceCol ∧ d.hasPriorityCol) then
    .error "Dataset must contain columns job_id, priority, service_time_ms"
  else
    .ok (d.rows.foldl
      (fun m row =>
        dictInsert m row.job_id
          { job_id := row.job_id
            service_ms := row.service_time_ms
            arrival_ms := if d.hasArrivalCol then row.arrival_time_ms else 0
            priority := row.priority })
      [])

/-- One output row of finalize_run (resource columns omitted). -/
structure ResultRow where
  job_id : String
  arrival_time_ms : Int
  service_time_ms : Int
  start_time_ms : Int
  finish_time_ms : Int
  waiting_time_ms : Int
  execution_time_ms : Int
  response_time_ms : Int
  slowdown : ℚ
  priority : Int
deriving Repr, DecidableEq

/-- The per-job rows finalize_run computes. -/
def resultRows (jobs : List (String × JobState)) : List ResultRow :=
  jobs.filterMap fun p =>
    match p.2.start_ms, p.2.finish_ms with
    | some s, some f =>
        some { job_id := p.2.job_id
               arrival_time_ms := p.2.arrival_ms
               service_time_ms := p.2.service_ms
               start_time_ms := s
               finish_time_ms := f
               waiting_time_ms := s - p.2.arrival_ms
               execution_time_ms := f - s
               response_time_ms := f - p.2.arrival_ms
               slowdown := ((f - p.2.arrival_ms : Int) : ℚ) /
                 (max 1 (p.2.service_ms) : Int)
               priority := p.2.priority }
    | _, _ => none

/-- Embedding of finalize_run: an empty row set returns before the done
    flag is set, exactly as the FIFO variant. -/
def finalizeRun (run : RunState) : RunState × List ResultRow :=
  let rows := resultRows run.jobs
  if rows.length = 0 then (run, rows)
  else ({ run with done := true }, rows)

inductive NextResp where
  | http400
  | noRun
  | runDone
  | ok (job_id : String) (execution_ms : Int) (priority : Int) (arrival_time_ms : Int)
  | waitTimeout
  | keyError
  | block (wait_s : ℚ)
deriving Repr, DecidableEq

/-- One iteration of the long-poll loop of next_job: advance the simulated
    clock, promote arrivals, then pop the heap minimum or wait. -/
def nextStep (active : Option RunState) (now_sim : Int) (remaining_s : ℚ) :
    NextResp × Option RunState :=
  match active with
  | none => (.noRun, none)
  | some run =>
      if run.done ∨ run.completed ≥ run.total_jobs then (.runDone, some run)
      else
        let cur := max run.current_sim_ms now_sim
        let run1 := promoteArrivals { run with current_sim_ms := cur } cur
        match popMinReady run1.ready_heap with
        | some (e, rest) =>
            match dictGet run1.jobs e.jid with
            | some job =>
                (.ok e.jid job.service_ms e.priority e.arrival,
                 some { run1 with ready_heap := rest })
            | none => (.keyError, some run1)
        | none =>
            if remaining_s ≤ 0 then (.waitTimeout, some run1)
            else (.block remaining_s, some run1)

/-- The next_job handler: liveness guard, then the loop body. -/
def nextJob (timeout : ℚ) (ws : List (String × Registry.WorkerInfo))
    (now : ℚ) (worker_id : String) (core_id : Int)
    (active : Option RunState) (now_sim : Int) (remaining_s : ℚ) :
    NextResp × Option RunState :=
  if Registry.isAliveWorkerCore timeout ws now worker_id core_id then
    nextStep active now_sim remaining_s
  else (.http400, active)

structure DoneReq where
  job_id : String
  started_wall_ms : Int
  finished_wall_ms : Int
deriving Repr, DecidableEq

inductive DoneResp where
  | http400
  | noRun
  | runDone
  | unknownJob
  | ok
deriving Repr, DecidableEq

/-- Embedding of the done handler body.  Unlike the FIFO variant, the
    finish stamp is the sim conversion of the reported start wall plus the
    service time, even when a start was already recorded. -/
def doneStep (active : Option RunState) (req : DoneReq) :
    DoneResp × Option RunState :=
  match active with
  | none => (.noRun, none)
  | some run =>
      if run.done then (.runDone, some run)
      else
        match dictGet run.jobs req.job_id with
        | none => (.unknownJob, some run)
        | some job =>
            let started_sim := wallToSim run req.started_wall_ms
            let finished_sim := started_sim + job.service_ms
            let start_ms :=
              match job.start_ms with
              | none => started_sim
              | some s => s
            let job1 : JobState :=
              { job with start_ms := some start_ms, finish_ms := some finished_sim }
            let run1 : RunState :=
              { run with
                  jobs := dictInsert run.jobs req.job_id job1
                  current_sim_ms := max run.current_sim_ms finished_sim
                  completed := run.completed + 1 }
            if run1.completed ≥ run1.total_jobs then
              (.ok, some (finalizeRun run1).1)
            else
              (.ok, some run1)

/-- The done handler: liveness guard, then the body. -/
def doneCall (timeout : ℚ) (ws : List (String × Registry.WorkerInfo))
    (now : ℚ) (worker_id : String) (core_id : Int)
    (active : Option RunState) (req : DoneReq) :
    DoneResp × Option RunState :=
  if Registry.isAliveWorkerCore timeout ws now worker_id core_id then
    doneStep active req
  else (.http400, active)

end Prio

-- ---------------------------------------------------------------
-- Round-robin scheduler (src/round-robin/scheduler.py)
-- ---------------------------------------------------------------

namespace RR

structure JobState where
  job_id : String
  service_ms : Int
  remaining_ms : Int
  arrival_ms : Int := 0
  first_start_ms : Option Int := none
  finish_ms : Option Int := none
  slices : Int := 0
  preemptions : Int := 0
deriving Repr, DecidableEq

/-- The run state.  The source keeps the full pending id list plus a read
    index pending_idx; the model keeps the still-pending suffix, which is
    the part every access goes through. -/
structure RunState where
  run_id : String
  dataset_file : String
  quantum_ms : Int
  speedup : ℚ
  start_wall_ms : Int
  jobs : List (String × JobState)
  ready_q : List String
  pending_ids : List String
  total_jobs : Nat
  completed : Nat := 0
  done : Bool := false
deriving Repr, DecidableEq

/-- Embedding of wall_to_sim. -/
def wallToSim (run : RunState) (wall_ms : Int) : Int :=
  pyRound (((wall_ms - run.start_wall_ms : Int) : ℚ) * run.speedup)

/-- Embedding of release_arrivals: move every pending job whose arrival is
    at or before now_sim_ms to the tail of the ready queue.  A pending id
    that is not in the jobs dict would raise a KeyError in Python; the
    model substitutes an inert record there. -/
def releaseArrivals (run : RunState) (now_sim_ms : Int) : RunState :=
  match hp : run.pending_ids with
  | [] => run
  | jid :: rest =>
      let job := (dictGet run.jobs jid).getD
        { job_id := jid, service_ms := 0, remaining_ms := 0 }
      if job.arrival_ms > now_sim_ms then run
      else
        releaseArrivals
          { run with ready_q := run.ready_q ++ [jid], pending_ids := rest }
          now_sim_ms
termination_by run.pending_ids.length
decreasing_by
  simp [hp]

theorem releaseArrivals_nil (run : RunState) (now_sim_ms : Int)
    (h : run.pending_ids = []) : releaseArrivals run now_sim_ms = run := by
  rw [releaseArrivals.eq_def]
  split
  · rfl
  · simp_all

/-- Stable insertion used to model the stable sort_values on the arrival
    column. -/
def insertByArrival (row : CsvRow) : List CsvRow → List CsvRow
  | [] => [row]
  | r :: rest =>
      if r.arrival_time_ms ≤ row.arrival_time_ms then
        r :: insertByArrival row rest
      else row :: r :: rest

/-- Embedding of load_jobs: job_id, service_time_ms AND arrival_time_ms
    columns are all required here; rows are stably sorted by arrival, and
    remaining_ms starts equal to service_ms. -/
def loadJobs (d : Dataset) : Except String (List (String × JobState)) :=
  if ¬ (d.hasJobIdCol ∧ d.hasServiceCol ∧ d.hasArrivalCol) then
    .error "Dataset must contain at least arrival_time_ms, job_id, service_time_ms"
  else
    let sorted := d.rows.foldl (fun acc row => insertByArrival row acc) []
    .ok (sorted.foldl
      (fun m row =>
        dictInsert m row.job_id
          { job_id := row.job_id
            service_ms := row.service_time_ms
            remaining_ms := row.service_time_ms
            arrival_ms := row.arrival_time_ms })
      [])

/-- One output row of finalize_run.  This variant records no slowdown
    column, and its waiting time is response minus service. -/
structure ResultRow where
  job_id : String
  service_time_ms : Int
  arrival_time_ms : Int
  first_start_time_ms : Int
  finish_time_ms : Int
  response_time_ms : Int
  waiting_time_ms : Int
  slices : Int
  preemptions : Int
deriving Repr, DecidableEq

/-- The per-job rows finalize_run computes: jobs without a finish stamp
    are skipped; a missing first start is reported as 0. -/
def resultRows (jobs : List (String × JobState)) : List ResultRow :=
  jobs.filterMap fun p =>
    match p.2.finish_ms with
    | some f =>
        some { job_id := p.2.job_id
               service_time_ms := p.2.service_ms
               arrival_time_ms := p.2.arrival_ms
               first_start_time_ms := p.2.first_start_ms.getD 0
               finish_time_ms := f
               response_time_ms := f - p.2.arrival_ms
               waiting_time_ms := (f - p.2.arrival_ms) - p.2.service_ms
               slices := p.2.slices
               preemptions := p.2.preemptions }
    | none => none

/-- Embedding of finalize_run: this variant handles the empty case and
    always sets the done flag. -/
def finalizeRun (run : RunState) : RunState × List ResultRow :=
  ({ run with done := true }, resultRows run.jobs)

inductive NextResp where
  | http400
  | noRun
  | runDone
  | ok (job_id : String) (slice_ms : Int) (remaining_before_ms : Int)
       (arrival_time_ms : Int)
  | waitTimeout
  | keyError
  | block (wait_s : ℚ)
deriving Repr, DecidableEq

/-- One iteration of the long-poll loop of next_slice: release arrivals,
    dispatch min(quantum, remaining) from the queue head, or compute the
    arrival-aware bounded wait. -/
def nextStep (active : Option RunState) (now_sim_ms : Int)
    (remaining_req_s : ℚ) : NextResp × Option RunState :=
  match active with
  | none => (.noRun, none)
  | some run =>
      if run.done ∨ run.completed ≥ run.total_jobs then (.runDone, some run)
      else
        let run1 := releaseArrivals run now_sim_ms
        match run1.ready_q with
        | jid :: rest =>
            match dictGet run1.jobs jid with
            | some job =>
                let slice_ms := min run1.quantum_ms job.remaining_ms
                (.ok jid slice_ms job.remaining_ms job.arrival_ms,
                 some { run1 with ready_q := rest })
            | none => (.keyError, some run1)
        | [] =>
            if remaining_req_s ≤ 0 then (.waitTimeout, some run1)
            else
              match run1.pending_ids with
              | next_jid :: _ =>
                  let next_arr_sim :=
                    ((dictGet run1.jobs next_jid).getD
                      { job_id := next_jid, service_ms := 0,
                        remaining_ms := 0 }).arrival_ms
                  let delta_sim := max 0 (next_arr_sim - now_sim_ms)
                  let wait_until_arrival :=
                    max (1/1000 : ℚ) (((delta_sim : Int) : ℚ) / run1.speedup / 1000)
                  (.block (min remaining_req_s wait_until_arrival), some run1)
              | [] => (.block remaining_req_s, some run1)

/-- The next_slice handler: liveness guard, then the loop body. -/
def nextSlice (timeout : ℚ) (ws : List (String × Registry.WorkerInfo))
    (now : ℚ) (worker_id : String) (core_id : Int)
    (active : Option RunState) (now_sim_ms : Int) (remaining_req_s : ℚ) :
    NextResp × Option RunState :=
  if Registry.isAliveWorkerCore timeout ws now worker_id core_id then
    nextStep active now_sim_ms remaining_req_s
  else (.http400, active)

structure DoneReq where
  job_id : String
  ran_ms : Int
  remaining_after_ms : Int
  started_wall_ms : Int
  finished_wall_ms : Int
deriving Repr, DecidableEq

inductive DoneResp where
  | http400
  | noRun
  | runDone
  | unknownJob
  | ok
deriving Repr, DecidableEq

/-- Embedding of the done handler body: stamp the first start if missing,
    count the slice, clamp the remaining time at zero; a finished job gets
    the wall-converted finish stamp and a completion, an unfinished one a
    preemption and a place at the ready tail. -/
def doneStep (active : Option RunState) (req : DoneReq) :
    DoneResp × Option RunState :=
  match active with
  | none => (.noRun, none)
  | some run =>
      if run.done then (.runDone, some run)
      else
        match dictGet run.jobs req.job_id with
        | none => (.unknownJob, some run)
        | some job =>
            let started_sim := wallToSim run req.started_wall_ms
            let finished_sim := wallToSim run req.finished_wall_ms
            let job1 : JobState :=
              { job with
                  first_start_ms := some (job.first_start_ms.getD started_sim)
                  slices := job.slices + 1
                  remaining_ms := max 0 req.remaining_after_ms }
            let run1 : RunState :=
              if job1.remaining_ms = 0 then
                { run with
                    jobs := dictInsert run.jobs req.job_id
                      { job1 with finish_ms := some finished_sim }
                    completed := run.completed + 1 }
              else
                { run with
                    jobs := dictInsert run.jobs req.job_id
                      { job1 with preemptions := job1.preemptions + 1 }
                    ready_q := run.ready_q ++ [req.job_id] }
            if run1.completed ≥ run1.total_jobs then
              (.ok, some (finalizeRun run1).1)
            else
              (.ok, some run1)

/-- The done handler: liveness guard, then the body. -/
def doneCall (timeout : ℚ) (ws : List (String × Registry.WorkerInfo))
    (now : ℚ) (worker_id : String) (core_id : Int)
    (active : Option RunState) (req : DoneReq) :
    DoneResp × Option RunState :=
  if Registry.isAliveWorkerCore timeout ws now worker_id core_id then
    doneStep active req
  else (.http400, active)

end RR

-- ---------------------------------------------------------------
-- Root round-robin scheduler (src/scheduler.py)
-- ---------------------------------------------------------------

namespace RRoot

structure JobState where
  job_id : String
  service_ms : Int
  remaining_ms : Int
  arrival_ms : Int := 0
  first_start_ms : Option Int := none
  finish_ms : Option Int := none
  slices : Int := 0
  preemptions : Int := 0
deriving Repr, DecidableEq

/-- The run state of the root variant: there is no pending set at all,
    every job starts in the ready queue. -/
structure RunState where
  run_id : String
  dataset_file : String
  quantum_ms : Int
  speedup : ℚ
  start_wall_ms : Int
  jobs : List (String × JobState)
  ready_q : List String
  total_jobs : Nat
  completed : Nat := 0
  done : Bool := false
deriving Repr, DecidableEq

/-- Embedding of wall_to_sim. -/
def wallToSim (run : RunState) (wall_ms : Int) : Int :=
  pyRound (((wall_ms - run.start_wall_ms : Int) : ℚ) * run.speedup)

/-- Embedding of load_jobs: only job_id and service_time_ms are required,
    and arrival_ms is hard-coded to 0 — the arrival column is never read,
    present or not. -/
def loadJobs (d : Dataset) : Except String (List (String × JobState)) :=
  if ¬ (d.hasJobIdCol ∧ d.hasServiceCol) then
    .error "Dataset must contain at least job_id and service_time_ms"
  else
    .ok (d.rows.foldl
      (fun m row =>
        dictInsert m row.job_id
          { job_id := row.job_id
            service_ms := row.service_time_ms
            remaining_ms := row.service_time_ms
            arrival_ms := 0 })
      [])

/-- One output row of finalize_run: like the round-robin variant but with
    a slowdown column. -/
structure ResultRow where
  job_id : String
  service_time_ms : Int
  arrival_time_ms : Int
  first_start_time_ms : Int
  finish_time_ms : Int
  response_time_ms : Int
  waiting_time_ms : Int
  slices : Int
  preemptions : Int
  slowdown : ℚ
deriving Repr, DecidableEq

/-- The per-job rows finalize_run computes. -/
def resultRows (jobs : List (String × JobState)) : List ResultRow :=
  jobs.filterMap fun p =>
    match p.2.finish_ms with
    | some f =>
        some { job_id := p.2.job_id
               service_time_ms := p.2.service_ms
               arrival_time_ms := p.2.arrival_ms
               first_start_time_ms := p.2.first_start_ms.getD 0
               finish_time_ms := f
               response_time_ms := f - p.2.arrival_ms
               waiting_time_ms := (f - p.2.arrival_ms) - p.2.service_ms
               slices := p.2.slices
               preemptions := p.2.preemptions
               slowdown := ((f - p.2.arrival_ms : Int) : ℚ) /
                 (max 1 (p.2.service_ms) : Int) }
    | none => none

/-- Embedding of finalize_run.  With no completed rows the percentile
    computation of this variant raises on the empty frame before the done
    flag is set, so the empty case leaves the run unchanged. -/
def finalizeRun (run : RunState) : RunState × List ResultRow :=
  let rows := resultRows run.jobs
  if rows.length = 0 then (run, rows)
  else ({ run with done := true }, rows)

structure DoneReq where
  job_id : String
  ran_ms : Int
  remaining_after_ms : Int
  started_wall_ms : Int
  finished_wall_ms : Int
deriving Repr, DecidableEq

inductive DoneResp where
  | http400
  | noRun
  | runDone
  | unknownJob
  | ok
deriving Repr, DecidableEq

/-- Embedding of the done handler body, identical in its state updates to
    the round-robin variant. -/
def doneStep (active : Option RunState) (req : DoneReq) :
    DoneResp × Option RunState :=
  match active with
  | none => (.noRun, none)
  | some run =>
      if run.done then (.runDone, some run)
      else
        match dictGet run.jobs req.job_id with
        | none => (.unknownJob, some run)
        | some job =>
            let started_sim := wallToSim run req.started_wall_ms
            let finished_sim := wallToSim run req.finished_wall_ms
            let job1 : JobState :=
              { job with
                  first_start_ms := some (job.first_start_ms.getD started_sim)
                  slices := job.slices + 1
                  remaining_ms := max 0 req.remaining_after_ms }
            let run1 : RunState :=
              if job1.remaining_ms = 0 then
                { run with
                    jobs := dictInsert run.jobs req.job_id
                      { job1 with finish_ms := some finished_sim }
                    completed := run.completed + 1 }
              else
                { run with
                    jobs := dictInsert run.jobs req.job_id
                      { job1 with preemptions := job1.preemptions + 1 }
                    ready_q := run.ready_q ++ [req.job_id] }
            if run1.completed ≥ run1.total_jobs then
              (.ok, some (finalizeRun run1).1)
            else
              (.ok, some run1)

/-- The done handler: liveness guard, then the body. -/
def doneCall (timeout : ℚ) (ws : List (String × Registry.WorkerInfo))
    (now : ℚ) (worker_id : String) (core_id : Int)
    (active : Option RunState) (req : DoneReq) :
    DoneResp × Option RunState :=
  if Registry.isAliveWorkerCore timeout ws now worker_id core_id then
    doneStep active req
  else (.http400, active)

end RRoot

-- ---------------------------------------------------------------
-- Concrete states used by witnesses and counterexamples
-- ---------------------------------------------------------------

/-- A registry with one live worker offering four cores. -/
def wsEx : List (String × Registry.WorkerInfo) := [("w", ⟨4, 100⟩)]

/-- A one-job round-robin run used to exercise the done handler. -/
def rrRunC3 : RR.RunState :=
  { run_id := "r1", dataset_file := "d.csv", quantum_ms := 20, speedup := 1,
    start_wall_ms := 0,
    jobs := [("A", { job_id := "A", service_ms := 30, remaining_ms := 30 })],
    ready_q := [], pending_ids := [], total_jobs := 1 }

/-- A done report for rrRunC3 leaving ten milliseconds of work. -/
def rrReqC3 : RR.DoneReq :=
  { job_id := "A", ran_ms := 20, remaining_after_ms := 10,
    started_wall_ms := 0, finished_wall_ms := 1 }

/-- A two-job FIFO run used to exercise duplicated done reports. -/
def fifoRunC10 : Fifo.RunState :=
  { run_id := "r2", dataset_file := "d.csv", speedup := 1, start_wall_ms := 0,
    jobs := [("A", { job_id := "A", service_ms := 7, arrival_ms := 0 }),
             ("B", { job_id := "B", service_ms := 9, arrival_ms := 0 })],
    ready_q := [], pending_jobs := [], total_jobs := 2 }

/-- A done report for job A of fifoRunC10, sent twice in the C10 drive. -/
def fifoReqC10 : Fifo.DoneReq :=
  { job_id := "A", started_wall_ms := 5, finished_wall_ms := 10 }

/-- A one-job FIFO run with the job ready, for the dispatch witness. -/
def fifoRunC1 : Fifo.RunState :=
  { run_id := "r3", dataset_file := "d.csv", speedup := 1, start_wall_ms := 0,
    jobs := [("A", { job_id := "A", service_ms := 7, arrival_ms := 0 })],
    ready_q := ["A"], pending_jobs := [], total_jobs := 1 }

/-- A one-job priority run with the job on the ready heap. -/
def prioRunC1 : Prio.RunState :=
  { run_id := "r4", dataset_file := "d.csv", speedup := 1, start_wall_ms := 0,
    jobs := [("P", { job_id := "P", service_ms := 11, arrival_ms := 0, priority := 2 })],
    ready_heap := [{ priority := 2, arrival := 0, seq := 0, jid := "P" }],
    pending_heap := [], next_seq := 1, total_jobs := 1 }

/-- A one-job round-robin run with the job ready. -/
def rrRunC1 : RR.RunState :=
  { run_id := "r5", dataset_file := "d.csv", quantum_ms := 20, speedup := 1,
    start_wall_ms := 0,
    jobs := [("R", { job_id := "R", service_ms := 30, remaining_ms := 30 })],
    ready_q := ["R"], pending_ids := [], total_jobs := 1 }

/-- A priority run whose job X already carries a recorded start of 0. -/
def prioRunC2 : Prio.RunState :=
  { run_id := "r6", dataset_file := "d.csv", speedup := 1, start_wall_ms := 0,
    jobs := [("X", { job_id := "X", service_ms := 100, arrival_ms := 0,
                     priority := 1, start_ms := some 0 })],
    ready_heap := [], pending_heap := [], next_seq := 1, total_jobs := 2 }

/-- A replayed done report for job X with a different start wall time. -/
def prioReqC2 : Prio.DoneReq :=
  { job_id := "X", started_wall_ms := 50, finished_wall_ms := 60 }

/-- The job record the priority done handler writes for prioReqC2. -/
def prioJobC2after : Prio.JobState :=
  { job_id := "X", service_ms := 100, arrival_ms := 0, priority := 1,
    start_ms := some 0,
    finish_ms := some (Prio.wallToSim prioRunC2 50 + 100) }

/-- The run state the priority done handler produces for prioReqC2. -/
def prioRunC2after : Prio.RunState :=
  { prioRunC2 with
      jobs := dictInsert prioRunC2.jobs "X" prioJobC2after
      current_sim_ms :=
        max prioRunC2.current_sim_ms (Prio.wallToSim prioRunC2 50 + 100)
      completed := 1 }

/-- A FIFO run whose pending job B has already arrived in simulated time
    (arrival 5, current sim 10) while the ready queue is empty. -/
def fifoRunC4 : Fifo.RunState :=
  { run_id := "r7", dataset_file := "d.csv", speedup := 1, start_wall_ms := 0,
    jobs := [("B", { job_id := "B", service_ms := 8, arrival_ms := 5 })],
    ready_q := [],
    pending_jobs := [("B", { job_id := "B", service_ms := 8, arrival_ms := 5 })],
    total_jobs := 1, current_sim_ms := 10 }

/-- A priority run with one pending job on the pending heap. -/
def prioRunC4 : Prio.RunState :=
  { run_id := "r8", dataset_file := "d.csv", speedup := 1, start_wall_ms := 0,
    jobs := [("Q", { job_id := "Q", service_ms := 9, arrival_ms := 5, priority := 3 })],
    ready_heap := [],
    pending_heap := [{ arrival := 5, seq := 0, jid := "Q" }],
    next_seq := 1, total_jobs := 1 }

/-- A round-robin run with one pending job. -/
def rrRunC4 : RR.RunState :=
  { run_id := "r9", dataset_file := "d.csv", quantum_ms := 20, speedup := 1,
    start_wall_ms := 0,
    jobs := [("S", { job_id := "S", service_ms := 12, remaining_ms := 12,
                     arrival_ms := 5 })],
    ready_q := [], pending_ids := ["S"], total_jobs := 1 }

/-- A dataset that exists and parses but lacks the service_time_ms
    column. -/
def dsMalformed : Dataset :=
  { hasJobIdCol := true, hasServiceCol := false, hasArrivalCol := false,
    hasPriorityCol := false,
    rows := [{ job_id := "A", service_time_ms := 5, arrival_time_ms := 0,
               priority := 0 }] }

/-- A FIFO run whose only job arrives at simulated time 100. -/
def fifoRunC7 : Fifo.RunState :=
  { run_id := "r10", dataset_file := "d.csv", speedup := 1, start_wall_ms := 0,
    jobs := [("L", { job_id := "L", service_ms := 50, arrival_ms := 100 })],
    ready_q := ["L"], pending_jobs := [], total_jobs := 1 }

/-- A done report for job L whose start wall maps to simulated time 0,
    before the job's arrival. -/
def fifoReqC7 : Fifo.DoneReq :=
  { job_id := "L", started_wall_ms := 0, finished_wall_ms := 1 }

/-- The job record the FIFO done handler writes for fifoReqC7. -/
def fifoJobC7after : Fifo.JobState :=
  { job_id := "L", service_ms := 50, arrival_ms := 100,
    start_ms := some (Fifo.wallToSim fifoRunC7 0),
    finish_ms := some (Fifo.wallToSim fifoRunC7 0 + 50) }

/-- The finalized run the FIFO done handler produces for fifoReqC7. -/
def fifoRunC7after : Fifo.RunState :=
  { fifoRunC7 with
      jobs := dictInsert fifoRunC7.jobs "L" fifoJobC7after
      current_sim_ms :=
        max fifoRunC7.current_sim_ms (Fifo.wallToSim fifoRunC7 0 + 50)
      completed := 1
      done := true }

/-- A completed RR job with a gap between its first start and its finish,
    used to test the finalize metrics. -/
def rrJobC8 : RR.JobState :=
  { job_id := "A", service_ms := 30, remaining_ms := 0, arrival_ms := 0,
    first_start_ms := some 20, finish_ms := some 60, slices := 3,
    preemptions := 2 }

/-- A dataset with job_id, service_time_ms and priority columns but no
    arrival_time_ms column. -/
def dsNoArrival : Dataset :=
  { hasJobIdCol := true, hasServiceCol := true, hasArrivalCol := false,
    hasPriorityCol := true,
    rows := [{ job_id := "A", service_time_ms := 5, arrival_time_ms := 7,
               priority := 1 }] }

/-- A dataset with every column present and one row arriving at 7. -/
def dsWithArrival : Dataset :=
  { hasJobIdCol := true, hasServiceCol := true, hasArrivalCol := true,
    hasPriorityCol := true,
    rows := [{ job_id := "A", service_time_ms := 5, arrival_time_ms := 7,
               priority := 1 }] }

/-- The state after the first done report on fifoRunC10. -/
def fifoRunC10a : Fifo.RunState :=
  { fifoRunC10 with
      jobs := dictInsert fifoRunC10.jobs "A"
        { job_id := "A", service_ms := 7, arrival_ms := 0
          start_ms := some (Fifo.wallToSim fifoRunC10 5)
          finish_ms := some (Fifo.wallToSim fifoRunC10 5 + 7) }
      current_sim_ms :=
        max fifoRunC10.current_sim_ms (Fifo.wallToSim fifoRunC10 5 + 7)
      completed := 1 }

/-- The state after replaying the same done report: the run finalizes with
    job B still unfinished. -/
def fifoRunC10b : Fifo.RunState :=
  { fifoRunC10a with
      jobs := dictInsert fifoRunC10a.jobs "A"
        { job_id := "A", service_ms := 7, arrival_ms := 0
          start_ms := some (Fifo.wallToSim fifoRunC10 5)
          finish_ms := some (Fifo.wallToSim fifoRunC10 5 + 7) }
      current_sim_ms :=
        max fifoRunC10a.current_sim_ms (Fifo.wallToSim fifoRunC10 5 + 7)
      completed := 2
      done := true }

-- ---------------------------------------------------------------
-- General lemmas about the dictionary model
-- ---------------------------------------------------------------

theorem dictGet_insert {α : Type} (m : List (String × α)) (k : String) (v : α) :
    dictGet (dictInsert m k v) k = some v := by
  induction m with
  | nil => simp [dictInsert, dictGet]
  | cons p rest ih =>
      obtain ⟨k1, v1⟩ := p
      by_cases hk : k1 = k
      · simp [dictInsert, hk, dictGet]
      · simp [dictInsert, hk, dictGet, ih]

theorem wsEx_alive : Registry.isAliveWorkerCore 10 wsEx 100 "w" 0 = true := by
  norm_num [Registry.isAliveWorkerCore, dictGet, wsEx]

theorem pyRound_intCast (n : Int) : pyRound ((n : ℚ)) = n := by
  unfold pyRound
  norm_num

theorem Fifo.finalizeRun_jobs_fifo (run : Fifo.RunState) :
    (Fifo.finalizeRun run).1.jobs = run.jobs := by
  unfold Fifo.finalizeRun
  by_cases h : (Fifo.resultRows run.jobs).length = 0 <;> simp [h]

theorem Prio.finalizeRun_jobs_prio (run : Prio.RunState) :
    (Prio.finalizeRun run).1.jobs = run.jobs := by
  unfold Prio.finalizeRun
  by_cases h : (Prio.resultRows run.jobs).length = 0 <;> simp [h]

theorem Fifo.finalizeRun_completed_fifo (run : Fifo.RunState) :
    (Fifo.finalizeRun run).1.completed = run.completed := by
  unfold Fifo.finalizeRun
  by_cases h : (Fifo.resultRows run.jobs).length = 0 <;> simp [h]

theorem Prio.finalizeRun_completed_prio (run : Prio.RunState) :
    (Prio.finalizeRun run).1.completed = run.completed := by
  unfold Prio.finalizeRun
  by_cases h : (Prio.resultRows run.jobs).length = 0 <;> simp [h]

theorem Fifo.finalizeRun_pending_fifo (run : Fifo.RunState) :
    (Fifo.finalizeRun run).1.pending_jobs = run.pending_jobs := by
  unfold Fifo.finalizeRun
  by_cases h : (Fifo.resultRows run.jobs).length = 0 <;> simp [h]

theorem Prio.finalizeRun_pending_prio (run : Prio.RunState) :
    (Prio.finalizeRun run).1.pending_heap = run.pending_heap := by
  unfold Prio.finalizeRun
  by_cases h : (Prio.resultRows run.jobs).length = 0 <;> simp [h]

theorem Prio.promoteArrivals_single (run : Prio.RunState) (upto : Int)
    (e : Prio.PendEntry) (hpend : run.pending_heap = [e])
    (harr : e.arrival ≤ upto) :
    Prio.promoteArrivals run upto
      = Prio.pushReady { run with pending_heap := [] } e.jid := by
  rw [Prio.promoteArrivals]
  have hpop : Prio.popMinPend run.pending_heap = some (e, []) := by
    rw [hpend]; rfl
  rw [hpop]
  dsimp only
  rw [if_pos harr]
  exact Prio.promoteArrivals_nil _ _ (by rw [Prio.pushReady_pending])

theorem Prio.promoteArrivals_stop (run : Prio.RunState) (upto : Int)
    (m : Prio.PendEntry) (r : List Prio.PendEntry)
    (hpop : Prio.popMinPend run.pending_heap = some (m, r))
    (h : ¬ m.arrival ≤ upto) :
    Prio.promoteArrivals run upto = run := by
  rw [Prio.promoteArrivals, hpop]
  dsimp only
  rw [if_neg h]

theorem RR.releaseArrivals_cons_stop (run : RR.RunState) (now_sim_ms : Int)
    (jid : String) (rest : List String) (job : RR.JobState)
    (hpend : run.pending_ids = jid :: rest)
    (hjob : dictGet run.jobs jid = some job)
    (harr : job.arrival_ms > now_sim_ms) :
    RR.releaseArrivals run now_sim_ms = run := by
  rw [RR.releaseArrivals.eq_def]
  split
  · rfl
  · rename_i jid2 rest2 hp
    rw [hpend] at hp
    injection hp with h1 h2
    subst h1; subst h2
    rw [hjob]
    simp only [Option.getD_some]
    rw [if_pos harr]

theorem RR.releaseArrivals_single (run : RR.RunState) (now_sim_ms : Int)
    (jid : String) (job : RR.JobState)
    (hpend : run.pending_ids = [jid])
    (hjob : dictGet run.jobs jid = some job)
    (harr : ¬ job.arrival_ms > now_sim_ms) :
    RR.releaseArrivals run now_sim_ms
      = { run with ready_q := run.ready_q ++ [jid], pending_ids := [] } := by
  rw [RR.releaseArrivals.eq_def]
  split
  · simp_all
  · rename_i jid2 rest2 hp
    rw [hpend] at hp
    injection hp with h1 h2
    subst h1; subst h2
    rw [hjob]
    simp only [Option.getD_some]
    rw [if_neg harr]
    exact RR.releaseArrivals_nil _ _ rfl

theorem RR.finalizeRun_fields_rr (run : RR.RunState) :
    (RR.finalizeRun run).1.jobs = run.jobs ∧
    (RR.finalizeRun run).1.ready_q = run.ready_q ∧
    (RR.finalizeRun run).1.completed = run.completed := by
  simp [RR.finalizeRun]

theorem RRoot.finalizeRun_fields_rroot (run : RRoot.RunState) :
    (RRoot.finalizeRun run).1.jobs = run.jobs ∧
    (RRoot.finalizeRun run).1.ready_q = run.ready_q ∧
    (RRoot.finalizeRun run).1.completed = run.completed := by
  unfold RRoot.finalizeRun
  by_cases h : (RRoot.resultRows run.jobs).length = 0 <;> simp [h]

-- ---------------------------------------------------------------
-- Claim theorems
-- ---------------------------------------------------------------

/-- C3: for every /done on an RR run (both round-robin variants) with an
    alive (worker, core) and a known job_id, remaining_ms becomes
    max(0, remaining_after_ms) and slices increments; when the new
    remaining is 0 the finish stamp is sim_ms(finished_wall_ms) and
    completed increments, otherwise preemptions increments and the job id
    is re-appended to the ready tail. -/
theorem C3_rr_done_updates
    (timeout : ℚ) (ws : List (String × Registry.WorkerInfo)) (now : ℚ)
    (wid : String) (cid : Int)
    (hAlive : Registry.isAliveWorkerCore timeout ws now wid cid = true) :
    (∀ (run : RR.RunState) (req : RR.DoneReq) (job : RR.JobState),
      run.done = false →
      dictGet run.jobs req.job_id = some job →
      ∃ run1, RR.doneCall timeout ws now wid cid (some run) req
          = (.ok, some run1) ∧
        ∃ job1, dictGet run1.jobs req.job_id = some job1 ∧
          job1.remaining_ms = max 0 req.remaining_after_ms ∧
          job1.slices = job.slices + 1 ∧
          (max 0 req.remaining_after_ms = 0 →
            job1.finish_ms = some (RR.wallToSim run req.finished_wall_ms) ∧
            run1.completed = run.completed + 1 ∧
            job1.preemptions = job.preemptions ∧
            run1.ready_q = run.ready_q) ∧
          (max 0 req.remaining_after_ms ≠ 0 →
            job1.preemptions = job.preemptions + 1 ∧
            run1.ready_q = run.ready_q ++ [req.job_id] ∧
            run1.completed = run.completed ∧
            job1.finish_ms = job.finish_ms))
    ∧
    (∀ (run : RRoot.RunState) (req : RRoot.DoneReq) (job : RRoot.JobState),
      run.done = false →
      dictGet run.jobs req.job_id = some job →
      ∃ run1, RRoot.doneCall timeout ws now wid cid (some run) req
          = (.ok, some run1) ∧
        ∃ job1, dictGet run1.jobs req.job_id = some job1 ∧
          job1.remaining_ms = max 0 req.remaining_after_ms ∧
          job1.slices = job.slices + 1 ∧
          (max 0 req.remaining_after_ms = 0 →
            job1.finish_ms = some (RRoot.wallToSim run req.finished_wall_ms) ∧
            run1.completed = run.completed + 1 ∧
            job1.preemptions = job.preemptions ∧
            run1.ready_q = run.ready_q) ∧
          (max 0 req.remaining_after_ms ≠ 0 →
            job1.preemptions = job.preemptions + 1 ∧
            run1.ready_q = run.ready_q ++ [req.job_id] ∧
            run1.completed = run.completed ∧
            job1.finish_ms = job.finish_ms)) := by
  constructor
  · intro run req job hdone hjob
    simp only [RR.doneCall, hAlive, if_true]
    simp only [RR.doneStep, hdone, Bool.false_eq_true, if_false, hjob]
    split <;> rename_i hrem
    · split <;> rename_i hfin
      · simp only [RR.finalizeRun]
        refine ⟨_, rfl, _, dictGet_insert _ _ _, rfl, rfl, ?_, ?_⟩
        · intro _; exact ⟨rfl, rfl, rfl, rfl⟩
        · intro hcon; exact absurd hrem hcon
      · refine ⟨_, rfl, _, dictGet_insert _ _ _, rfl, rfl, ?_, ?_⟩
        · intro _; exact ⟨rfl, rfl, rfl, rfl⟩
        · intro hcon; exact absurd hrem hcon
    · split <;> rename_i hfin
      · simp only [RR.finalizeRun]
        refine ⟨_, rfl, _, dictGet_insert _ _ _, rfl, rfl, ?_, ?_⟩
        · intro hcon; exact absurd hcon hrem
        · intro _; exact ⟨rfl, rfl, rfl, rfl⟩
      · refine ⟨_, rfl, _, dictGet_insert _ _ _, rfl, rfl, ?_, ?_⟩
        · intro hcon; exact absurd hcon hrem
        · intro _; exact ⟨rfl, rfl, rfl, rfl⟩
  · intro run req job hdone hjob
    simp only [RRoot.doneCall, hAlive, if_true]
    simp only [RRoot.doneStep, hdone, Bool.false_eq_true, if_false, hjob]
    split <;> rename_i hrem
    · split <;> rename_i hfin
      · simp only [RRoot.finalizeRun]
        split
        · refine ⟨_, rfl, _, dictGet_insert _ _ _, rfl, rfl, ?_, ?_⟩
          · intro _; exact ⟨rfl, rfl, rfl, rfl⟩
          · intro hcon; exact absurd hrem hcon
        · refine ⟨_, rfl, _, dictGet_insert _ _ _, rfl, rfl, ?_, ?_⟩
          · intro _; exact ⟨rfl, rfl, rfl, rfl⟩
          · intro hcon; exact absurd hrem hcon
      · refine ⟨_, rfl, _, dictGet_insert _ _ _, rfl, rfl, ?_, ?_⟩
        · intro _; exact ⟨rfl, rfl, rfl, rfl⟩
        · intro hcon; exact absurd hrem hcon
    · split <;> rename_i hfin
      · simp only [RRoot.finalizeRun]
        split
        · refine ⟨_, rfl, _, dictGet_insert _ _ _, rfl, rfl, ?_, ?_⟩
          · intro hcon; exact absurd hcon hrem
          · intro _; exact ⟨rfl, rfl, rfl, rfl⟩
        · refine ⟨_, rfl, _, dictGet_insert _ _ _, rfl, rfl, ?_, ?_⟩
          · intro hcon; exact absurd hcon hrem
          · intro _; exact ⟨rfl, rfl, rfl, rfl⟩
      · refine ⟨_, rfl, _, dictGet_insert _ _ _, rfl, rfl, ?_, ?_⟩
        · intro hcon; exact absurd hcon hrem
        · intro _; exact ⟨rfl, rfl, rfl, rfl⟩

/-- Witness for C3: the theorem applied to a live worker, a concrete
    one-job round-robin run, and a report leaving work, so the preemption
    branch is the live one. -/
theorem C3_rr_done_updates_witness :
    ∃ run1, RR.doneCall 10 wsEx 100 "w" 0 (some rrRunC3) rrReqC3
        = (.ok, some run1) ∧
      ∃ job1, dictGet run1.jobs rrReqC3.job_id = some job1 ∧
        job1.remaining_ms = max 0 rrReqC3.remaining_after_ms ∧
        job1.slices = 0 + 1 ∧
        (max 0 rrReqC3.remaining_after_ms = 0 →
          job1.finish_ms = some (RR.wallToSim rrRunC3 rrReqC3.finished_wall_ms) ∧
          run1.completed = rrRunC3.completed + 1 ∧
          job1.preemptions = 0 ∧
          run1.ready_q = rrRunC3.ready_q) ∧
        (max 0 rrReqC3.remaining_after_ms ≠ 0 →
          job1.preemptions = 0 + 1 ∧
          run1.ready_q = rrRunC3.ready_q ++ [rrReqC3.job_id] ∧
          run1.completed = rrRunC3.completed ∧
          job1.finish_ms = none) := by
  exact (C3_rr_done_updates 10 wsEx 100 "w" 0 wsEx_alive).1 rrRunC3 rrReqC3
    { job_id := "A", service_ms := 30, remaining_ms := 30 } rfl rfl

/-- C10: a replayed /done on a FIFO or Priority run is not ignored — with
    an alive (worker, core), an active non-finalized run and a known
    job_id whose finish stamp is already set, the handler still answers ok
    and increments completed by one; so duplicated reports can drive
    completed to total_jobs and finalize the run while another job never
    finished. -/
theorem C10_duplicate_done_counts
    (timeout : ℚ) (ws : List (String × Registry.WorkerInfo)) (now : ℚ)
    (wid : String) (cid : Int)
    (hAlive : Registry.isAliveWorkerCore timeout ws now wid cid = true) :
    (∀ (run : Fifo.RunState) (req : Fifo.DoneReq) (job : Fifo.JobState),
      run.done = false →
      dictGet run.jobs req.job_id = some job →
      job.finish_ms.isSome = true →
      ∃ run1, Fifo.doneCall timeout ws now wid cid (some run) req
          = (.ok, some run1) ∧
        run1.completed = run.completed + 1)
    ∧
    (∀ (run : Prio.RunState) (req : Prio.DoneReq) (job : Prio.JobState),
      run.done = false →
      dictGet run.jobs req.job_id = some job →
      job.finish_ms.isSome = true →
      ∃ run1, Prio.doneCall timeout ws now wid cid (some run) req
          = (.ok, some run1) ∧
        run1.completed = run.completed + 1)
    ∧
    (∃ runA runB,
      Fifo.doneCall timeout ws now wid cid (some fifoRunC10) fifoReqC10
          = (.ok, some runA) ∧
      Fifo.doneCall timeout ws now wid cid (some runA) fifoReqC10
          = (.ok, some runB) ∧
      runB.done = true ∧
      runB.completed = fifoRunC10.total_jobs ∧
      ∃ jb, dictGet runB.jobs "B" = some jb ∧ jb.finish_ms = none) := by
  refine ⟨?_, ?_, ?_⟩
  · intro run req job hdone hjob _
    simp only [Fifo.doneCall, hAlive, if_true]
    simp only [Fifo.doneStep, hdone, Bool.false_eq_true, if_false, hjob]
    split
    · exact ⟨_, rfl, (Fifo.finalizeRun_completed_fifo _).trans rfl⟩
    · exact ⟨_, rfl, rfl⟩
  · intro run req job hdone hjob _
    simp only [Prio.doneCall, hAlive, if_true]
    simp only [Prio.doneStep, hdone, Bool.false_eq_true, if_false, hjob]
    split
    · exact ⟨_, rfl, (Prio.finalizeRun_completed_prio _).trans rfl⟩
    · exact ⟨_, rfl, rfl⟩
  · refine ⟨fifoRunC10a, fifoRunC10b, ?_, ?_, rfl, rfl, _, rfl, rfl⟩
    · simp only [Fifo.doneCall, hAlive, if_true]
      rfl
    · simp only [Fifo.doneCall, hAlive, if_true]
      rfl

/-- Witness for C10: the theorem applied to a live worker and a FIFO run
    whose job A already carries a finish stamp. -/
theorem C10_duplicate_done_counts_witness :
    ∃ run1, Fifo.doneCall 10 wsEx 100 "w" 0 (some fifoRunC10a) fifoReqC10
        = (.ok, some run1) ∧
      run1.completed = fifoRunC10a.completed + 1 := by
  exact (C10_duplicate_done_counts 10 wsEx 100 "w" 0 wsEx_alive).1
    fifoRunC10a fifoReqC10
    { job_id := "A", service_ms := 7, arrival_ms := 0
      start_ms := some (Fifo.wallToSim fifoRunC10 5)
      finish_ms := some (Fifo.wallToSim fifoRunC10 5 + 7) }
    rfl rfl rfl

/-- C1: the dispatch decision of /next from an alive (worker, core), one
    loop iteration per policy.  No active run answers no_run; a finalized
    run or completed equal to total_jobs answers done; otherwise, with a
    non-empty ready structure (after the promotion the policy performs),
    exactly one job is popped — the FIFO and RR queue head, the
    (priority, arrival, sequence) minimum for Priority — and the reply is
    ok with execution_ms = service_ms (FIFO, Priority) or
    slice_ms = min(quantum_ms, remaining_ms) (RR); with an empty ready
    structure and an expired deadline the reply is wait. -/
theorem C1_next_dispatch
    (timeout : ℚ) (ws : List (String × Registry.WorkerInfo)) (now : ℚ)
    (wid : String) (cid : Int)
    (hAlive : Registry.isAliveWorkerCore timeout ws now wid cid = true)
    (now_sim : Int) (rem : ℚ) :
    (Fifo.nextJob timeout ws now wid cid none rem = (.noRun, none))
    ∧
    (∀ run : Fifo.RunState, run.done = true ∨ run.completed = run.total_jobs →
      Fifo.nextJob timeout ws now wid cid (some run) rem = (.runDone, some run))
    ∧
    (∀ (run : Fifo.RunState) (jid : String) (rest : List String)
       (job : Fifo.JobState),
      run.done = false → run.completed ≤ run.total_jobs →
      run.completed ≠ run.total_jobs →
      run.ready_q = jid :: rest →
      dictGet run.jobs jid = some job →
      Fifo.nextJob timeout ws now wid cid (some run) rem
        = (.ok jid job.service_ms, some { run with ready_q := rest }))
    ∧
    (∀ run : Fifo.RunState,
      run.done = false → run.completed ≤ run.total_jobs →
      run.completed ≠ run.total_jobs →
      run.ready_q = [] → rem ≤ 0 →
      Fifo.nextJob timeout ws now wid cid (some run) rem
        = (.waitTimeout, some run))
    ∧
    (Prio.nextJob timeout ws now wid cid none now_sim rem = (.noRun, none))
    ∧
    (∀ run : Prio.RunState, run.done = true ∨ run.completed = run.total_jobs →
      Prio.nextJob timeout ws now wid cid (some run) now_sim rem
        = (.runDone, some run))
    ∧
    (∀ (run : Prio.RunState) (e : Prio.HeapEntry) (rest : List Prio.HeapEntry)
       (job : Prio.JobState),
      run.done = false → run.completed ≤ run.total_jobs →
      run.completed ≠ run.total_jobs →
      run.pending_heap = [] →
      Prio.popMinReady run.ready_heap = some (e, rest) →
      dictGet run.jobs e.jid = some job →
      Prio.nextJob timeout ws now wid cid (some run) now_sim rem
        = (.ok e.jid job.service_ms e.priority e.arrival,
           some { run with
                    current_sim_ms := max run.current_sim_ms now_sim
                    ready_heap := rest }) ∧
      (∀ x ∈ run.ready_heap, Prio.lex3LE e x) ∧
      rest.length + 1 = run.ready_heap.length)
    ∧
    (∀ run : Prio.RunState,
      run.done = false → run.completed ≤ run.total_jobs →
      run.completed ≠ run.total_jobs →
      run.pending_heap = [] → run.ready_heap = [] → rem ≤ 0 →
      Prio.nextJob timeout ws now wid cid (some run) now_sim rem
        = (.waitTimeout,
           some { run with current_sim_ms := max run.current_sim_ms now_sim }))
    ∧
    (RR.nextSlice timeout ws now wid cid none now_sim rem = (.noRun, none))
    ∧
    (∀ run : RR.RunState, run.done = true ∨ run.completed = run.total_jobs →
      RR.nextSlice timeout ws now wid cid (some run) now_sim rem
        = (.runDone, some run))
    ∧
    (∀ (run : RR.RunState) (jid : String) (rest : List String)
       (job : RR.JobState),
      run.done = false → run.completed ≤ run.total_jobs →
      run.completed ≠ run.total_jobs →
      run.pending_ids = [] →
      run.ready_q = jid :: rest →
      dictGet run.jobs jid = some job →
      RR.nextSlice timeout ws now wid cid (some run) now_sim rem
        = (.ok jid (min run.quantum_ms job.remaining_ms) job.remaining_ms
             job.arrival_ms,
           some { run with ready_q := rest }))
    ∧
    (∀ run : RR.RunState,
      run.done = false → run.completed ≤ run.total_jobs →
      run.completed ≠ run.total_jobs →
      run.pending_ids = [] → run.ready_q = [] → rem ≤ 0 →
      RR.nextSlice timeout ws now wid cid (some run) now_sim rem
        = (.waitTimeout, some run)) := by
  refine ⟨?_, ?_, ?_, ?_, ?_, ?_, ?_, ?_, ?_, ?_, ?_, ?_⟩
  · simp [Fifo.nextJob, hAlive, Fifo.nextStep]
  · intro run h
    rcases h with h | h <;>
      simp [Fifo.nextJob, hAlive, Fifo.nextStep, h]
  · intro run jid rest job hdone hle hne hq hjob
    have hlt := lt_of_le_of_ne hle hne
    simp only [Fifo.nextJob, hAlive, if_true]
    simp only [Fifo.nextStep, hdone, Bool.false_eq_true, false_or, hq, hjob]
    rw [if_neg (not_le.mpr hlt)]
  · intro run hdone hle hne hq hrem
    have hlt := lt_of_le_of_ne hle hne
    simp only [Fifo.nextJob, hAlive, if_true]
    simp only [Fifo.nextStep, hdone, Bool.false_eq_true, false_or, hq]
    rw [if_neg (not_le.mpr hlt), if_pos hrem]
  · simp [Prio.nextJob, hAlive, Prio.nextStep]
  · intro run h
    rcases h with h | h <;>
      simp [Prio.nextJob, hAlive, Prio.nextStep, h]
  · intro run e rest job hdone hle hne hpend hpop hjob
    have hlt := lt_of_le_of_ne hle hne
    refine ⟨?_, Prio.popMinReady_le hpop, Prio.popMinReady_length hpop⟩
    simp only [Prio.nextJob, hAlive, if_true]
    simp only [Prio.nextStep, hdone, Bool.false_eq_true, false_or]
    rw [if_neg (not_le.mpr hlt)]
    rw [Prio.promoteArrivals_nil _ _ (by simpa using hpend)]
    simp only [hpop, hjob]
  · intro run hdone hle hne hpend hready hrem
    have hlt := lt_of_le_of_ne hle hne
    simp only [Prio.nextJob, hAlive, if_true]
    simp only [Prio.nextStep, hdone, Bool.false_eq_true, false_or]
    rw [if_neg (not_le.mpr hlt)]
    rw [Prio.promoteArrivals_nil _ _ (by simpa using hpend)]
    have hpopnone : Prio.popMinReady run.ready_heap = none :=
      (Prio.popMinReady_none_iff _).mpr hready
    simp only [hpopnone]
    rw [if_pos hrem]
  · simp [RR.nextSlice, hAlive, RR.nextStep]
  · intro run h
    rcases h with h | h <;>
      simp [RR.nextSlice, hAlive, RR.nextStep, h]
  · intro run jid rest job hdone hle hne hpend hq hjob
    have hlt := lt_of_le_of_ne hle hne
    simp only [RR.nextSlice, hAlive, if_true]
    simp only [RR.nextStep, hdone, Bool.false_eq_true, false_or]
    rw [if_neg (not_le.mpr hlt)]
    rw [RR.releaseArrivals_nil _ _ hpend]
    simp only [hq, hjob]
    rw [hdone]
  · intro run hdone hle hne hpend hq hrem
    have hlt := lt_of_le_of_ne hle hne
    simp only [RR.nextSlice, hAlive, if_true]
    simp only [RR.nextStep, hdone, Bool.false_eq_true, false_or]
    rw [if_neg (not_le.mpr hlt)]
    rw [RR.releaseArrivals_nil _ _ hpend]
    simp only [hq, hpend]
    rw [if_pos hrem]

/-- Witness for C1: the dispatch cases of all three policies at concrete
    one-job runs, plus the wait case at an expired deadline. -/
theorem C1_next_dispatch_witness :
    Fifo.nextJob 10 wsEx 100 "w" 0 (some fifoRunC1) 5
      = (.ok "A" 7, some { fifoRunC1 with ready_q := [] }) ∧
    (Prio.nextJob 10 wsEx 100 "w" 0 (some prioRunC1) 50 5
      = (.ok "P" 11 2 0,
         some { prioRunC1 with
                  current_sim_ms := max prioRunC1.current_sim_ms 50
                  ready_heap := [] }) ∧
      (∀ x ∈ prioRunC1.ready_heap,
        Prio.lex3LE { priority := 2, arrival := 0, seq := 0, jid := "P" } x) ∧
      (0 : Nat) + 1 = prioRunC1.ready_heap.length) ∧
    RR.nextSlice 10 wsEx 100 "w" 0 (some rrRunC1) 50 5
      = (.ok "R" (min 20 30) 30 0, some { rrRunC1 with ready_q := [] }) ∧
    Fifo.nextJob 10 wsEx 100 "w" 0 (some fifoRunC10) 0
      = (.waitTimeout, some fifoRunC10) := by
  obtain ⟨f1, f2, f3, f4, p1, p2, p3, p4, r1, r2, r3, r4⟩ :=
    C1_next_dispatch 10 wsEx 100 "w" 0 wsEx_alive 50 5
  refine ⟨?_, ?_, ?_, ?_⟩
  · exact f3 fifoRunC1 "A" [] { job_id := "A", service_ms := 7, arrival_ms := 0 }
      rfl (by decide) (by decide) rfl rfl
  · exact p3 prioRunC1 { priority := 2, arrival := 0, seq := 0, jid := "P" } []
      { job_id := "P", service_ms := 11, arrival_ms := 0, priority := 2 }
      rfl (by decide) (by decide) rfl rfl rfl
  · exact r3 rrRunC1 "R" [] { job_id := "R", service_ms := 30, remaining_ms := 30 }
      rfl (by decide) (by decide) rfl rfl rfl
  · exact (C1_next_dispatch 10 wsEx 100 "w" 0 wsEx_alive 50 0).2.2.2.1 fifoRunC10
      rfl (by decide) (by decide) rfl (by norm_num)

/-- C2 counterexample: on the priority scheduler, a replayed /done with a
    different reported start wall stamps finish_ms from the new report
    (sim 50 + service 100 = 150), not from the recorded start_ms = 0 plus
    service (100), refuting the claim for the Priority policy. -/
theorem C2_done_finish_counterexample :
    Prio.doneCall 10 wsEx 100 "w" 0 (some prioRunC2) prioReqC2
      = (.ok, some prioRunC2after) ∧
    dictGet prioRunC2after.jobs "X" = some prioJobC2after ∧
    prioJobC2after.start_ms = some 0 ∧
    prioJobC2after.finish_ms = some 150 ∧
    prioJobC2after.finish_ms ≠ some (0 + 100) := by
  have hsim : Prio.wallToSim prioRunC2 50 = 50 := by
    have h1 : ((50 - prioRunC2.start_wall_ms : Int) : ℚ) * prioRunC2.speedup
        = ((50 : Int) : ℚ) := by
      norm_num [prioRunC2]
    rw [Prio.wallToSim, h1, pyRound_intCast]
  refine ⟨?_, rfl, rfl, ?_, ?_⟩
  · simp only [Prio.doneCall, wsEx_alive, if_true]
    rfl
  · show some (Prio.wallToSim prioRunC2 50 + 100) = some 150
    rw [hsim]
    decide
  · show some (Prio.wallToSim prioRunC2 50 + 100) ≠ some (0 + 100)
    rw [hsim]
    decide

/-- C2 amended: on FIFO the finish stamp is always the recorded start plus
    service_ms, also when an earlier /done already stamped the start; on
    Priority the finish stamp is sim_ms(started_wall_ms) + service_ms,
    which equals the recorded start plus service only when no start was
    recorded before the call. -/
theorem C2_done_finish_amended
    (timeout : ℚ) (ws : List (String × Registry.WorkerInfo)) (now : ℚ)
    (wid : String) (cid : Int)
    (hAlive : Registry.isAliveWorkerCore timeout ws now wid cid = true) :
    (∀ (run : Fifo.RunState) (req : Fifo.DoneReq) (job : Fifo.JobState),
      run.done = false →
      dictGet run.jobs req.job_id = some job →
      ∃ run1 job1 s,
        Fifo.doneCall timeout ws now wid cid (some run) req = (.ok, some run1) ∧
        dictGet run1.jobs req.job_id = some job1 ∧
        job1.start_ms = some s ∧
        job1.finish_ms = some (s + job.service_ms) ∧
        (∀ s0, job.start_ms = some s0 → s = s0) ∧
        (job.start_ms = none → s = Fifo.wallToSim run req.started_wall_ms))
    ∧
    (∀ (run : Prio.RunState) (req : Prio.DoneReq) (job : Prio.JobState),
      run.done = false →
      dictGet run.jobs req.job_id = some job →
      ∃ run1 job1,
        Prio.doneCall timeout ws now wid cid (some run) req = (.ok, some run1) ∧
        dictGet run1.jobs req.job_id = some job1 ∧
        job1.finish_ms
          = some (Prio.wallToSim run req.started_wall_ms + job.service_ms) ∧
        (job.start_ms = none →
          job1.start_ms = some (Prio.wallToSim run req.started_wall_ms))) := by
  constructor
  · intro run req job hdone hjob
    simp only [Fifo.doneCall, hAlive, if_true]
    simp only [Fifo.doneStep, hdone, Bool.false_eq_true, if_false, hjob]
    cases hstart : job.start_ms with
    | none =>
        simp only [hstart]
        split
        · refine ⟨_, { job with
              start_ms := some (Fifo.wallToSim run req.started_wall_ms)
              finish_ms := some (Fifo.wallToSim run req.started_wall_ms + job.service_ms) },
            Fifo.wallToSim run req.started_wall_ms, rfl, ?_, rfl, rfl, ?_, ?_⟩
          · rw [Fifo.finalizeRun_jobs_fifo]; exact dictGet_insert _ _ _
          · intro s0 hs0; exact Option.noConfusion hs0
          · intro _; rfl
        · refine ⟨_, _, Fifo.wallToSim run req.started_wall_ms, rfl,
            dictGet_insert _ _ _, rfl, rfl, ?_, ?_⟩
          · intro s0 hs0; exact Option.noConfusion hs0
          · intro _; rfl
    | some s0 =>
        simp only [hstart]
        split
        · refine ⟨_, { job with
              start_ms := some s0
              finish_ms := some (s0 + job.service_ms) }, s0, rfl, ?_, rfl, rfl, ?_, ?_⟩
          · rw [Fifo.finalizeRun_jobs_fifo]; exact dictGet_insert _ _ _
          · intro s1 hs1
            exact Option.some.inj hs1
          · intro hn; exact Option.noConfusion hn
        · refine ⟨_, _, s0, rfl, dictGet_insert _ _ _, rfl, rfl, ?_, ?_⟩
          · intro s1 hs1
            exact Option.some.inj hs1
          · intro hn; exact Option.noConfusion hn
  · intro run req job hdone hjob
    simp only [Prio.doneCall, hAlive, if_true]
    simp only [Prio.doneStep, hdone, Bool.false_eq_true, if_false, hjob]
    cases hstart : job.start_ms with
    | none =>
        simp only [hstart]
        split
        · refine ⟨_, { job with
              start_ms := some (Prio.wallToSim run req.started_wall_ms)
              finish_ms := some (Prio.wallToSim run req.started_wall_ms + job.service_ms) },
            rfl, ?_, rfl, ?_⟩
          · rw [Prio.finalizeRun_jobs_prio]; exact dictGet_insert _ _ _
          · intro _; rfl
        · exact ⟨_, _, rfl, dictGet_insert _ _ _, rfl, fun _ => rfl⟩
    | some s0 =>
        simp only [hstart]
        split
        · refine ⟨_, { job with
              start_ms := some s0
              finish_ms := some (Prio.wallToSim run req.started_wall_ms + job.service_ms) },
            rfl, ?_, rfl, ?_⟩
          · rw [Prio.finalizeRun_jobs_prio]; exact dictGet_insert _ _ _
          · intro hn; exact Option.noConfusion hn
        · exact ⟨_, _, rfl, dictGet_insert _ _ _, rfl,
            fun hn => Option.noConfusion hn⟩

/-- Witness for the amended C2 at a concrete FIFO run with no recorded
    start. -/
theorem C2_done_finish_amended_witness :
    ∃ run1 job1 s,
      Fifo.doneCall 10 wsEx 100 "w" 0 (some fifoRunC10) fifoReqC10
        = (.ok, some run1) ∧
      dictGet run1.jobs "A" = some job1 ∧
      job1.start_ms = some s ∧
      job1.finish_ms = some (s + 7) ∧
      (∀ s0, (none : Option Int) = some s0 → s = s0) ∧
      ((none : Option Int) = none → s = Fifo.wallToSim fifoRunC10 5) := by
  exact (C2_done_finish_amended 10 wsEx 100 "w" 0 wsEx_alive).1
    fifoRunC10 fifoReqC10 { job_id := "A", service_ms := 7, arrival_ms := 0 }
    rfl rfl

/-- C4 counterexample: the FIFO next handler performs no arrivals
    promotion — pending job B has already arrived (arrival 5 at current
    simulated time 10), yet the call blocks for the full remaining wait
    and returns the run with the pending set untouched instead of
    promoting and dispatching B. -/
theorem C4_promotion_counterexample :
    (∃ jb, dictGet fifoRunC4.pending_jobs "B" = some jb ∧
      jb.arrival_ms ≤ fifoRunC4.current_sim_ms) ∧
    Fifo.nextJob 10 wsEx 100 "w" 0 (some fifoRunC4) 5
      = (.block 5, some fifoRunC4) := by
  refine ⟨⟨_, rfl, by decide⟩, ?_⟩
  simp only [Fifo.nextJob, wsEx_alive, if_true]
  simp only [Fifo.nextStep]
  norm_num [fifoRunC4]

/-- C4 amended: the Priority and RR next handlers do promote eligible
    arrivals before their dispatch decision, but the FIFO next handler and
    the done handlers of all three policies leave the pending structure
    untouched — those paths rely entirely on the background arrival task. -/
theorem C4_promotion_amended
    (timeout : ℚ) (ws : List (String × Registry.WorkerInfo)) (now : ℚ)
    (wid : String) (cid : Int)
    (hAlive : Registry.isAliveWorkerCore timeout ws now wid cid = true)
    (now_sim : Int) (rem : ℚ) :
    (∀ (run : Prio.RunState) (e : Prio.PendEntry) (job : Prio.JobState),
      run.done = false → run.completed ≤ run.total_jobs →
      run.completed ≠ run.total_jobs →
      run.ready_heap = [] →
      run.pending_heap = [e] →
      e.arrival ≤ max run.current_sim_ms now_sim →
      dictGet run.jobs e.jid = some job →
      Prio.nextJob timeout ws now wid cid (some run) now_sim rem
        = (.ok e.jid job.service_ms job.priority job.arrival_ms,
           some { run with
                    current_sim_ms := max run.current_sim_ms now_sim
                    pending_heap := []
                    ready_heap := []
                    next_seq := run.next_seq + 1 }))
    ∧
    (∀ (run : RR.RunState) (jid : String) (job : RR.JobState),
      run.done = false → run.completed ≤ run.total_jobs →
      run.completed ≠ run.total_jobs →
      run.ready_q = [] →
      run.pending_ids = [jid] →
      dictGet run.jobs jid = some job →
      job.arrival_ms ≤ now_sim →
      RR.nextSlice timeout ws now wid cid (some run) now_sim rem
        = (.ok jid (min run.quantum_ms job.remaining_ms) job.remaining_ms
             job.arrival_ms,
           some { run with ready_q := [], pending_ids := [] }))
    ∧
    (∀ (run : Fifo.RunState),
      ∃ run1, (Fifo.nextStep (some run) rem).2 = some run1 ∧
        run1.pending_jobs = run.pending_jobs)
    ∧
    (∀ (run : Fifo.RunState) (req : Fifo.DoneReq),
      ∃ run1, (Fifo.doneStep (some run) req).2 = some run1 ∧
        run1.pending_jobs = run.pending_jobs)
    ∧
    (∀ (run : Prio.RunState) (req : Prio.DoneReq),
      ∃ run1, (Prio.doneStep (some run) req).2 = some run1 ∧
        run1.pending_heap = run.pending_heap)
    ∧
    (∀ (run : RR.RunState) (req : RR.DoneReq),
      ∃ run1, (RR.doneStep (some run) req).2 = some run1 ∧
        run1.pending_ids = run.pending_ids) := by
  refine ⟨?_, ?_, ?_, ?_, ?_, ?_⟩
  · intro run e job hdone hle hne hready hpend harr hjob
    simp only [Prio.nextJob, hAlive, if_true]
    simp only [Prio.nextStep, hdone, Bool.false_eq_true, false_or]
    rw [if_neg (not_le.mpr (lt_of_le_of_ne hle hne))]
    rw [Prio.promoteArrivals_single _ _ e (by simpa using hpend) harr]
    simp only [Prio.pushReady, hjob, Option.getD_some, hready]
    simp only [Prio.popMinReady]
    simp only [hjob]
  · intro run jid job hdone hle hne hready hpend hjob harr
    simp only [RR.nextSlice, hAlive, if_true]
    simp only [RR.nextStep, hdone, Bool.false_eq_true, false_or]
    rw [if_neg (not_le.mpr (lt_of_le_of_ne hle hne))]
    rw [RR.releaseArrivals_single _ _ jid job hpend hjob (by omega)]
    simp only [hready, List.nil_append, hjob]
    rw [hdone]
  · intro run
    simp only [Fifo.nextStep]
    split
    · exact ⟨run, rfl, rfl⟩
    · split
      · split
        · exact ⟨_, rfl, rfl⟩
        · exact ⟨_, rfl, rfl⟩
      · split
        · exact ⟨_, rfl, rfl⟩
        · exact ⟨_, rfl, rfl⟩
  · intro run req
    simp only [Fifo.doneStep]
    split
    · exact ⟨run, rfl, rfl⟩
    · split
      · exact ⟨run, rfl, rfl⟩
      · split
        · exact ⟨_, rfl, Fifo.finalizeRun_pending_fifo _⟩
        · exact ⟨_, rfl, rfl⟩
  · intro run req
    simp only [Prio.doneStep]
    split
    · exact ⟨run, rfl, rfl⟩
    · split
      · exact ⟨run, rfl, rfl⟩
      · split
        · exact ⟨_, rfl, Prio.finalizeRun_pending_prio _⟩
        · exact ⟨_, rfl, rfl⟩
  · intro run req
    simp only [RR.doneStep]
    split
    · exact ⟨run, rfl, rfl⟩
    · split
      · exact ⟨run, rfl, rfl⟩
      · split <;> split
        · exact ⟨_, rfl, rfl⟩
        · exact ⟨_, rfl, rfl⟩
        · exact ⟨_, rfl, rfl⟩
        · exact ⟨_, rfl, rfl⟩

/-- Witness for the amended C4: the Priority and RR next handlers promote
    and dispatch a concrete pending job that has arrived. -/
theorem C4_promotion_amended_witness :
    Prio.nextJob 10 wsEx 100 "w" 0 (some prioRunC4) 50 5
      = (.ok "Q" 9 3 5,
         some { prioRunC4 with
                  current_sim_ms := max prioRunC4.current_sim_ms 50
                  pending_heap := []
                  ready_heap := []
                  next_seq := prioRunC4.next_seq + 1 }) ∧
    RR.nextSlice 10 wsEx 100 "w" 0 (some rrRunC4) 50 5
      = (.ok "S" (min 20 12) 12 5,
         some { rrRunC4 with ready_q := [], pending_ids := [] }) := by
  obtain ⟨pa, rb, _, _, _, _⟩ :=
    C4_promotion_amended 10 wsEx 100 "w" 0 wsEx_alive 50 5
  constructor
  · exact pa prioRunC4 { arrival := 5, seq := 0, jid := "Q" }
      { job_id := "Q", service_ms := 9, arrival_ms := 5, priority := 3 }
      rfl (by decide) (by decide) rfl rfl (by decide) rfl
  · exact rb rrRunC4 "S"
      { job_id := "S", service_ms := 12, remaining_ms := 12, arrival_ms := 5 }
      rfl (by decide) (by decide) rfl rfl rfl (by decide)

/-- C5 counterexample: the FIFO run fifoRunC4 has a pending job, so the
    claimed wait bound min(remaining, floored time-to-arrival) equals one
    millisecond, yet the FIFO next handler blocks for the full remaining
    five seconds. -/
theorem C5_wait_duration_counterexample :
    Fifo.nextJob 10 wsEx 100 "w" 0 (some fifoRunC4) 5
      = (.block 5, some fifoRunC4) ∧
    min (5 : ℚ)
      (max (1/1000)
        ((((5 : Int) - (10 : Int) : Int) : ℚ) / fifoRunC4.speedup / 1000))
      ≠ 5 := by
  constructor
  · simp only [Fifo.nextJob, wsEx_alive, if_true]
    simp only [Fifo.nextStep]
    norm_num [fifoRunC4]
  · norm_num [fifoRunC4]

/-- C5 amended: only the RR next handler bounds each blocking wait by the
    time to the next pending arrival, as min(remaining, max(1 ms,
    (arrival − now_sim) / speedup / 1000)), falling back to the plain
    remaining wait when nothing is pending; the FIFO and Priority next
    handlers always block for the full remaining wait, whatever is
    pending; and an expired deadline with an empty ready structure yields
    wait. -/
theorem C5_wait_duration_amended
    (timeout : ℚ) (ws : List (String × Registry.WorkerInfo)) (now : ℚ)
    (wid : String) (cid : Int)
    (hAlive : Registry.isAliveWorkerCore timeout ws now wid cid = true)
    (now_sim : Int) (rem : ℚ) :
    (∀ (run : RR.RunState) (jid : String) (rest : List String)
       (job : RR.JobState),
      run.done = false → run.completed ≤ run.total_jobs →
      run.completed ≠ run.total_jobs →
      run.ready_q = [] →
      run.pending_ids = jid :: rest →
      dictGet run.jobs jid = some job →
      job.arrival_ms > now_sim →
      0 < rem →
      RR.nextSlice timeout ws now wid cid (some run) now_sim rem
        = (.block (min rem (max (1/1000)
            (((job.arrival_ms - now_sim : Int) : ℚ) / run.speedup / 1000))),
           some run))
    ∧
    (∀ run : RR.RunState,
      run.done = false → run.completed ≤ run.total_jobs →
      run.completed ≠ run.total_jobs →
      run.ready_q = [] → run.pending_ids = [] → 0 < rem →
      RR.nextSlice timeout ws now wid cid (some run) now_sim rem
        = (.block rem, some run))
    ∧
    (∀ run : Fifo.RunState,
      run.done = false → run.completed ≤ run.total_jobs →
      run.completed ≠ run.total_jobs →
      run.ready_q = [] → 0 < rem →
      Fifo.nextJob timeout ws now wid cid (some run) rem
        = (.block rem, some run))
    ∧
    (∀ (run : Prio.RunState) (m : Prio.PendEntry) (r : List Prio.PendEntry),
      run.done = false → run.completed ≤ run.total_jobs →
      run.completed ≠ run.total_jobs →
      run.ready_heap = [] →
      Prio.popMinPend run.pending_heap = some (m, r) →
      ¬ m.arrival ≤ max run.current_sim_ms now_sim →
      0 < rem →
      Prio.nextJob timeout ws now wid cid (some run) now_sim rem
        = (.block rem,
           some { run with current_sim_ms := max run.current_sim_ms now_sim }))
    ∧
    (∀ (run : RR.RunState) (jid : String) (rest : List String)
       (job : RR.JobState),
      run.done = false → run.completed ≤ run.total_jobs →
      run.completed ≠ run.total_jobs →
      run.ready_q = [] →
      run.pending_ids = jid :: rest →
      dictGet run.jobs jid = some job →
      job.arrival_ms > now_sim →
      rem ≤ 0 →
      RR.nextSlice timeout ws now wid cid (some run) now_sim rem
        = (.waitTimeout, some run)) := by
  refine ⟨?_, ?_, ?_, ?_, ?_⟩
  · intro run jid rest job hdone hle hne hready hpend hjob harr hrem
    simp only [RR.nextSlice, hAlive, if_true]
    simp only [RR.nextStep, hdone, Bool.false_eq_true, false_or]
    rw [if_neg (not_le.mpr (lt_of_le_of_ne hle hne))]
    rw [RR.releaseArrivals_cons_stop _ _ jid rest job hpend hjob harr]
    simp only [hready]
    rw [if_neg (not_le.mpr hrem)]
    simp only [hpend, hjob, Option.getD_some]
    rw [show (max 0 (job.arrival_ms - now_sim) : Int) = job.arrival_ms - now_sim
      from by omega]
  · intro run hdone hle hne hready hpend hrem
    simp only [RR.nextSlice, hAlive, if_true]
    simp only [RR.nextStep, hdone, Bool.false_eq_true, false_or]
    rw [if_neg (not_le.mpr (lt_of_le_of_ne hle hne))]
    rw [RR.releaseArrivals_nil _ _ hpend]
    simp only [hready]
    rw [if_neg (not_le.mpr hrem)]
    simp only [hpend]
  · intro run hdone hle hne hready hrem
    simp only [Fifo.nextJob, hAlive, if_true]
    simp only [Fifo.nextStep, hdone, Bool.false_eq_true, false_or, hready]
    rw [if_neg (not_le.mpr (lt_of_le_of_ne hle hne))]
    rw [if_neg (not_le.mpr hrem)]
  · intro run m r hdone hle hne hready hpop hstop hrem
    simp only [Prio.nextJob, hAlive, if_true]
    simp only [Prio.nextStep, hdone, Bool.false_eq_true, false_or]
    rw [if_neg (not_le.mpr (lt_of_le_of_ne hle hne))]
    rw [Prio.promoteArrivals_stop _ _ m r (by simpa using hpop) hstop]
    simp only [hready, Prio.popMinReady]
    rw [if_neg (not_le.mpr hrem)]
  · intro run jid rest job hdone hle hne hready hpend hjob harr hrem
    simp only [RR.nextSlice, hAlive, if_true]
    simp only [RR.nextStep, hdone, Bool.false_eq_true, false_or]
    rw [if_neg (not_le.mpr (lt_of_le_of_ne hle hne))]
    rw [RR.releaseArrivals_cons_stop _ _ jid rest job hpend hjob harr]
    simp only [hready]
    rw [if_pos hrem]

/-- Witness for the amended C5: the RR handler blocks for the bounded
    wait at a concrete pending job, the FIFO handler for the full
    remaining wait. -/
theorem C5_wait_duration_amended_witness :
    RR.nextSlice 10 wsEx 100 "w" 0 (some rrRunC4) 0 5
      = (.block (min 5 (max (1/1000)
          ((((5 : Int) - (0 : Int) : Int) : ℚ) / rrRunC4.speedup / 1000))),
         some rrRunC4) ∧
    Fifo.nextJob 10 wsEx 100 "w" 0 (some fifoRunC10) 5
      = (.block 5, some fifoRunC10) := by
  obtain ⟨rb, _, fb, _, _⟩ :=
    C5_wait_duration_amended 10 wsEx 100 "w" 0 wsEx_alive 0 5
  constructor
  · exact rb rrRunC4 "S" []
      { job_id := "S", service_ms := 12, remaining_ms := 12, arrival_ms := 5 }
      rfl (by decide) (by decide) rfl rfl rfl (by decide) (by norm_num)
  · exact fb fifoRunC10 rfl (by decide) (by decide) rfl (by norm_num)

theorem wsEx_slots : Registry.totalAliveSlots 10 wsEx 100 = 4 := by
  norm_num [Registry.totalAliveSlots, wsEx, List.filter]

/-- C6 counterexample: with enough live slots and an existing but
    malformed dataset (service_time_ms column missing), /start does not
    answer HTTP 400 — the ValueError of load_jobs escapes the handler
    uncaught, and the active run is left unchanged. -/
theorem C6_start_errors_counterexample :
    Fifo.startStep 10 wsEx 100
        { dataset_file := "d.csv", speedup := 1, min_slots := 1 }
        (some (.ok dsMalformed)) "rid" 0 none
      = (.uncaught "Dataset must contain at least job_id and service_time_ms",
         none) ∧
    (∀ msg,
      (Fifo.startStep 10 wsEx 100
          { dataset_file := "d.csv", speedup := 1, min_slots := 1 }
          (some (.ok dsMalformed)) "rid" 0 none).1 ≠ .http400 msg) := by
  have hstep : Fifo.startStep 10 wsEx 100
      { dataset_file := "d.csv", speedup := 1, min_slots := 1 }
      (some (.ok dsMalformed)) "rid" 0 none
    = (.uncaught "Dataset must contain at least job_id and service_time_ms",
       none) := by
    simp only [Fifo.startStep, wsEx_slots]
    norm_num [Fifo.loadJobs, dsMalformed]
  refine ⟨hstep, ?_⟩
  intro msg
  rw [hstep]
  simp

/-- C6 amended: /start answers HTTP 400 with the run unchanged when alive
    slots are below min_slots or the dataset file does not exist; a
    dataset that fails to parse, or parses but lacks a required column,
    makes the handler raise an uncaught error (an HTTP 500, not a 400),
    also with the run unchanged; on success the new run is installed as
    active and its run_id returned. -/
theorem C6_start_errors_amended
    (timeout : ℚ) (ws : List (String × Registry.WorkerInfo)) (nows : ℚ)
    (req : Fifo.StartReq) (file : Option (Except String Dataset))
    (rid : String) (now_wall : Int) (active : Option Fifo.RunState) :
    (Registry.totalAliveSlots timeout ws nows < req.min_slots →
      ∃ msg, Fifo.startStep timeout ws nows req file rid now_wall active
        = (.http400 msg, active))
    ∧
    (¬ Registry.totalAliveSlots timeout ws nows < req.min_slots →
      file = none →
      ∃ msg, Fifo.startStep timeout ws nows req file rid now_wall active
        = (.http400 msg, active))
    ∧
    (∀ e, ¬ Registry.totalAliveSlots timeout ws nows < req.min_slots →
      file = some (.error e) →
      Fifo.startStep timeout ws nows req file rid now_wall active
        = (.uncaught e, active))
    ∧
    (∀ d e, ¬ Registry.totalAliveSlots timeout ws nows < req.min_slots →
      file = some (.ok d) → Fifo.loadJobs d = .error e →
      Fifo.startStep timeout ws nows req file rid now_wall active
        = (.uncaught e, active))
    ∧
    (∀ d jobs, ¬ Registry.totalAliveSlots timeout ws nows < req.min_slots →
      file = some (.ok d) → Fifo.loadJobs d = .ok jobs →
      ∃ run1, Fifo.startStep timeout ws nows req file rid now_wall active
          = (.ok rid, some run1) ∧
        run1.run_id = rid ∧ run1.jobs = jobs ∧
        run1.total_jobs = jobs.length) := by
  refine ⟨?_, ?_, ?_, ?_, ?_⟩
  · intro hlt
    exact ⟨_, by simp only [Fifo.startStep]; rw [if_pos hlt]⟩
  · intro hge hfile
    subst hfile
    exact ⟨_, by simp only [Fifo.startStep]; rw [if_neg hge]⟩
  · intro e hge hfile
    subst hfile
    simp only [Fifo.startStep]
    rw [if_neg hge]
  · intro d e hge hfile hload
    subst hfile
    simp only [Fifo.startStep, hload]
    rw [if_neg hge]
  · intro d jobs hge hfile hload
    subst hfile
    have hstep : Fifo.startStep timeout ws nows req (some (.ok d)) rid
        now_wall active
        = (.ok rid, some
            { run_id := rid, dataset_file := req.dataset_file,
              speedup := req.speedup, start_wall_ms := now_wall,
              jobs := jobs,
              ready_q := (jobs.filter (fun p => p.2.arrival_ms ≤ 0)).map Prod.fst,
              pending_jobs := jobs.filter (fun p => ¬ (p.2.arrival_ms ≤ 0)),
              total_jobs := jobs.length }) := by
      simp only [Fifo.startStep, hload]
      rw [if_neg hge]
    exact ⟨_, hstep, rfl, rfl, rfl⟩

/-- Witness for the amended C6: the malformed-column case at a concrete
    registry and dataset. -/
theorem C6_start_errors_amended_witness :
    Fifo.startStep 10 wsEx 100
        { dataset_file := "d.csv", speedup := 1, min_slots := 1 }
        (some (.ok dsMalformed)) "rid" 0 none
      = (.uncaught "Dataset must contain at least job_id and service_time_ms",
         none) := by
  exact (C6_start_errors_amended 10 wsEx 100
      { dataset_file := "d.csv", speedup := 1, min_slots := 1 }
      (some (.ok dsMalformed)) "rid" 0 none).2.2.2.1 dsMalformed _
    (by rw [wsEx_slots]; norm_num) rfl rfl

/-- C7 counterexample: arrival causality is not enforced — a worker report
    whose start wall maps to simulated time 0 stamps start_ms = 0 on a job
    that only arrives at simulated time 100, and the run finalizes in that
    state. -/
theorem C7_arrival_causality_counterexample :
    Fifo.doneCall 10 wsEx 100 "w" 0 (some fifoRunC7) fifoReqC7
      = (.ok, some fifoRunC7after) ∧
    fifoRunC7after.done = true ∧
    dictGet fifoRunC7after.jobs "L" = some fifoJobC7after ∧
    fifoJobC7after.arrival_ms = 100 ∧
    fifoJobC7after.start_ms = some 0 ∧
    ¬ ((0 : Int) ≥ 100) := by
  have hsim : Fifo.wallToSim fifoRunC7 0 = 0 := by
    have h1 : ((0 - fifoRunC7.start_wall_ms : Int) : ℚ) * fifoRunC7.speedup
        = ((0 : Int) : ℚ) := by
      norm_num [fifoRunC7]
    rw [Fifo.wallToSim, h1, pyRound_intCast]
  refine ⟨?_, rfl, rfl, rfl, ?_, by decide⟩
  · simp only [Fifo.doneCall, wsEx_alive, if_true]
    rfl
  · show some (Fifo.wallToSim fifoRunC7 0) = some 0
    rw [hsim]

/-- C7 amended: arrival causality depends on the reported wall times — it
    holds exactly for reports whose converted start is at or after the
    job arrival.  Under each policy, when the job has no recorded start
    and sim_ms(started_wall_ms) ≥ arrival_ms, the recorded start respects
    arrival ≤ start, and the completing stamp satisfies start ≤ finish
    (for FIFO and Priority given 0 ≤ service_ms; for RR given a finish
    wall no earlier than the start wall in sim units). -/
theorem C7_arrival_causality_amended
    (timeout : ℚ) (ws : List (String × Registry.WorkerInfo)) (now : ℚ)
    (wid : String) (cid : Int)
    (hAlive : Registry.isAliveWorkerCore timeout ws now wid cid = true) :
    (∀ (run : Fifo.RunState) (req : Fifo.DoneReq) (job : Fifo.JobState),
      run.done = false →
      dictGet run.jobs req.job_id = some job →
      job.start_ms = none →
      job.arrival_ms ≤ Fifo.wallToSim run req.started_wall_ms →
      0 ≤ job.service_ms →
      ∃ run1 job1 s f,
        Fifo.doneCall timeout ws now wid cid (some run) req = (.ok, some run1) ∧
        dictGet run1.jobs req.job_id = some job1 ∧
        job1.start_ms = some s ∧ job1.finish_ms = some f ∧
        job1.arrival_ms ≤ s ∧ s ≤ f)
    ∧
    (∀ (run : Prio.RunState) (req : Prio.DoneReq) (job : Prio.JobState),
      run.done = false →
      dictGet run.jobs req.job_id = some job →
      job.start_ms = none →
      job.arrival_ms ≤ Prio.wallToSim run req.started_wall_ms →
      0 ≤ job.service_ms →
      ∃ run1 job1 s f,
        Prio.doneCall timeout ws now wid cid (some run) req = (.ok, some run1) ∧
        dictGet run1.jobs req.job_id = some job1 ∧
        job1.start_ms = some s ∧ job1.finish_ms = some f ∧
        job1.arrival_ms ≤ s ∧ s ≤ f)
    ∧
    (∀ (run : RR.RunState) (req : RR.DoneReq) (job : RR.JobState),
      run.done = false →
      dictGet run.jobs req.job_id = some job →
      job.first_start_ms = none →
      job.arrival_ms ≤ RR.wallToSim run req.started_wall_ms →
      RR.wallToSim run req.started_wall_ms
        ≤ RR.wallToSim run req.finished_wall_ms →
      max 0 req.remaining_after_ms = 0 →
      ∃ run1 job1 s f,
        RR.doneCall timeout ws now wid cid (some run) req = (.ok, some run1) ∧
        dictGet run1.jobs req.job_id = some job1 ∧
        job1.first_start_ms = some s ∧ job1.finish_ms = some f ∧
        job1.arrival_ms ≤ s ∧ s ≤ f) := by
  refine ⟨?_, ?_, ?_⟩
  · intro run req job hdone hjob hstart harr hsvc
    simp only [Fifo.doneCall, hAlive, if_true]
    simp only [Fifo.doneStep, hdone, Bool.false_eq_true, if_false, hjob,
      hstart]
    split
    · refine ⟨_, { job with
          start_ms := some (Fifo.wallToSim run req.started_wall_ms)
          finish_ms := some (Fifo.wallToSim run req.started_wall_ms + job.service_ms) },
        _, _, rfl, ?_, rfl, rfl, harr, by omega⟩
      rw [Fifo.finalizeRun_jobs_fifo]; exact dictGet_insert _ _ _
    · exact ⟨_, _, _, _, rfl, dictGet_insert _ _ _, rfl, rfl, harr, by omega⟩
  · intro run req job hdone hjob hstart harr hsvc
    simp only [Prio.doneCall, hAlive, if_true]
    simp only [Prio.doneStep, hdone, Bool.false_eq_true, if_false, hjob,
      hstart]
    split
    · refine ⟨_, { job with
          start_ms := some (Prio.wallToSim run req.started_wall_ms)
          finish_ms := some (Prio.wallToSim run req.started_wall_ms + job.service_ms) },
        _, _, rfl, ?_, rfl, rfl, harr, by omega⟩
      rw [Prio.finalizeRun_jobs_prio]; exact dictGet_insert _ _ _
    · exact ⟨_, _, _, _, rfl, dictGet_insert _ _ _, rfl, rfl, harr, by omega⟩
  · intro run req job hdone hjob hstart harr hfin hrem0
    simp only [RR.doneCall, hAlive, if_true]
    simp only [RR.doneStep, hdone, Bool.false_eq_true, if_false, hjob,
      hstart, Option.getD_none]
    split <;> rename_i hr
    · split <;> rename_i hfin2
      · simp only [RR.finalizeRun]
        exact ⟨_, _, _, _, rfl, dictGet_insert _ _ _, rfl, rfl, harr, hfin⟩
      · exact ⟨_, _, _, _, rfl, dictGet_insert _ _ _, rfl, rfl, harr, hfin⟩
    · exact absurd hrem0 hr

/-- Witness for the amended C7 at a concrete FIFO run and a report whose
    start maps to simulated time 5, after the arrival at 0. -/
theorem C7_arrival_causality_amended_witness :
    ∃ run1 job1 s f,
      Fifo.doneCall 10 wsEx 100 "w" 0 (some fifoRunC10) fifoReqC10
        = (.ok, some run1) ∧
      dictGet run1.jobs "A" = some job1 ∧
      job1.start_ms = some s ∧ job1.finish_ms = some f ∧
      job1.arrival_ms ≤ s ∧ s ≤ f := by
  have hsim : Fifo.wallToSim fifoRunC10 fifoReqC10.started_wall_ms = 5 := by
    have h1 : ((fifoReqC10.started_wall_ms - fifoRunC10.start_wall_ms : Int) : ℚ)
        * fifoRunC10.speedup = ((5 : Int) : ℚ) := by
      norm_num [fifoRunC10, fifoReqC10]
    rw [Fifo.wallToSim, h1, pyRound_intCast]
  exact (C7_arrival_causality_amended 10 wsEx 100 "w" 0 wsEx_alive).1
    fifoRunC10 fifoReqC10 { job_id := "A", service_ms := 7, arrival_ms := 0 }
    rfl rfl rfl (by rw [hsim]; decide) (by decide)

theorem dictInsert_forall {α : Type} (P : (String × α) → Prop)
    (m : List (String × α)) (k : String) (v : α)
    (hm : ∀ p ∈ m, P p) (hv : P (k, v)) :
    ∀ p ∈ dictInsert m k v, P p := by
  induction m with
  | nil => simpa [dictInsert] using hv
  | cons q rest ih =>
      obtain ⟨k1, v1⟩ := q
      intro p hp
      by_cases hk : k1 = k
      · simp only [dictInsert, hk, if_true] at hp
        rcases List.mem_cons.mp hp with rfl | hp
        · exact hv
        · exact hm _ (List.mem_cons_of_mem _ hp)
      · simp only [dictInsert, hk, if_false] at hp
        rcases List.mem_cons.mp hp with rfl | hp
        · exact hm _ (List.mem_cons_self _ _)
        · exact ih (fun q hq => hm q (List.mem_cons_of_mem _ hq)) p hp

theorem foldl_dictInsert_forall {α : Type} (P : (String × α) → Prop)
    (key : CsvRow → String) (val : CsvRow → α) :
    ∀ (rows : List CsvRow) (m : List (String × α)),
      (∀ p ∈ m, P p) → (∀ r ∈ rows, P (key r, val r)) →
      ∀ p ∈ rows.foldl (fun acc r => dictInsert acc (key r) (val r)) m, P p := by
  intro rows
  induction rows with
  | nil => intro m hm _ p hp; exact hm p hp
  | cons r rest ih =>
      intro m hm hrows p hp
      simp only [List.foldl_cons] at hp
      exact ih (dictInsert m (key r) (val r))
        (dictInsert_forall P m (key r) (val r) hm
          (hrows r (List.mem_cons_self _ _)))
        (fun q hq => hrows q (List.mem_cons_of_mem _ hq)) p hp

/-- C8 counterexample: the round-robin finalize computes waiting_time_ms
    as response minus service, which at a job with first start 20, finish
    60, arrival 0 and service 30 yields 30 — not first_start − arrival
    = 20 as the claim states — and its rows carry no slowdown column at
    all. -/
theorem C8_metrics_counterexample :
    RR.resultRows [("A", rrJobC8)]
      = [{ job_id := "A", service_time_ms := 30, arrival_time_ms := 0,
           first_start_time_ms := 20, finish_time_ms := 60,
           response_time_ms := 60, waiting_time_ms := 30,
           slices := 3, preemptions := 2 }] ∧
    (30 : Int) ≠ 20 - 0 := by
  exact ⟨rfl, by decide⟩

/-- C8 amended: at finalization FIFO and Priority rows carry
    waiting = start − arrival, response = finish − arrival and
    slowdown = response / max(1, service); both round-robin variants
    instead record waiting = (finish − arrival) − service, and only the
    root variant records a slowdown (again response / max(1, service)) —
    the round-robin directory variant records none. -/
theorem C8_metrics_amended :
    (∀ (k : String) (j : Fifo.JobState) (s f : Int),
      j.start_ms = some s → j.finish_ms = some f →
      Fifo.resultRows [(k, j)]
        = [{ job_id := j.job_id, arrival_time_ms := j.arrival_ms,
             service_time_ms := j.service_ms, start_time_ms := s,
             finish_time_ms := f,
             waiting_time_ms := s - j.arrival_ms,
             execution_time_ms := f - s,
             response_time_ms := f - j.arrival_ms,
             slowdown := ((f - j.arrival_ms : Int) : ℚ) /
               (max 1 (j.service_ms) : Int) }])
    ∧
    (∀ (k : String) (j : Prio.JobState) (s f : Int),
      j.start_ms = some s → j.finish_ms = some f →
      Prio.resultRows [(k, j)]
        = [{ job_id := j.job_id, arrival_time_ms := j.arrival_ms,
             service_time_ms := j.service_ms, start_time_ms := s,
             finish_time_ms := f,
             waiting_time_ms := s - j.arrival_ms,
             execution_time_ms := f - s,
             response_time_ms := f - j.arrival_ms,
             slowdown := ((f - j.arrival_ms : Int) : ℚ) /
               (max 1 (j.service_ms) : Int),
             priority := j.priority }])
    ∧
    (∀ (k : String) (j : RR.JobState) (f : Int),
      j.finish_ms = some f →
      RR.resultRows [(k, j)]
        = [{ job_id := j.job_id, service_time_ms := j.service_ms,
             arrival_time_ms := j.arrival_ms,
             first_start_time_ms := j.first_start_ms.getD 0,
             finish_time_ms := f,
             response_time_ms := f - j.arrival_ms,
             waiting_time_ms := (f - j.arrival_ms) - j.service_ms,
             slices := j.slices, preemptions := j.preemptions }])
    ∧
    (∀ (k : String) (j : RRoot.JobState) (f : Int),
      j.finish_ms = some f →
      RRoot.resultRows [(k, j)]
        = [{ job_id := j.job_id, service_time_ms := j.service_ms,
             arrival_time_ms := j.arrival_ms,
             first_start_time_ms := j.first_start_ms.getD 0,
             finish_time_ms := f,
             response_time_ms := f - j.arrival_ms,
             waiting_time_ms := (f - j.arrival_ms) - j.service_ms,
             slices := j.slices, preemptions := j.preemptions,
             slowdown := ((f - j.arrival_ms : Int) : ℚ) /
               (max 1 (j.service_ms) : Int) }]) := by
  refine ⟨?_, ?_, ?_, ?_⟩
  · intro k j s f hs hf
    simp [Fifo.resultRows, hs, hf]
  · intro k j s f hs hf
    simp [Prio.resultRows, hs, hf]
  · intro k j f hf
    simp [RR.resultRows, hf]
  · intro k j f hf
    simp [RRoot.resultRows, hf]

/-- Witness for the amended C8 at a concrete completed FIFO job. -/
theorem C8_metrics_amended_witness :
    Fifo.resultRows [("A",
        { job_id := "A", service_ms := 7, arrival_ms := 0,
          start_ms := some 2, finish_ms := some 9 })]
      = [{ job_id := "A", arrival_time_ms := 0, service_time_ms := 7,
           start_time_ms := 2, finish_time_ms := 9,
           waiting_time_ms := 2 - 0, execution_time_ms := 9 - 2,
           response_time_ms := 9 - 0,
           slowdown := (((9 : Int) - (0 : Int) : Int) : ℚ) /
             (max 1 ((7 : Int)) : Int) }] := by
  exact C8_metrics_amended.1 "A"
    { job_id := "A", service_ms := 7, arrival_ms := 0,
      start_ms := some 2, finish_ms := some 9 } 2 9 rfl rfl

/-- C9 counterexample: the round-robin scheduler requires the
    arrival_time_ms column — a dataset carrying only job_id and
    service_time_ms (plus priority) is rejected by its load_jobs with a
    ValueError instead of being accepted with arrivals defaulted to 0. -/
theorem C9_arrival_optional_counterexample :
    RR.loadJobs dsNoArrival
      = .error
        "Dataset must contain at least arrival_time_ms, job_id, service_time_ms" ∧
    (∀ jobs, RR.loadJobs dsNoArrival ≠ .ok jobs) := by
  refine ⟨rfl, ?_⟩
  intro jobs h
  simp [RR.loadJobs, dsNoArrival] at h

/-- C9 amended: the FIFO and Priority loaders treat arrival_time_ms as
    optional, defaulting every job arrival to 0 when the column is absent
    and using the per-row value when present, and FIFO start partitions
    jobs into ready iff arrival ≤ 0; the round-robin variant rejects any
    dataset without the column; the root variant always sets arrival to 0,
    ignoring the column even when present. -/
theorem C9_arrival_column_amended :
    (∀ d : Dataset, d.hasJobIdCol = true → d.hasServiceCol = true →
      d.hasArrivalCol = false →
      ∃ jobs, Fifo.loadJobs d = .ok jobs ∧
        ∀ p ∈ jobs, (p.2 : Fifo.JobState).arrival_ms = 0)
    ∧
    (∀ (d : Dataset) (r : CsvRow), d.hasJobIdCol = true →
      d.hasServiceCol = true → d.hasArrivalCol = true → d.rows = [r] →
      Fifo.loadJobs d = .ok [(r.job_id,
        { job_id := r.job_id, service_ms := r.service_time_ms,
          arrival_ms := r.arrival_time_ms })])
    ∧
    (∀ d : Dataset, d.hasJobIdCol = true → d.hasServiceCol = true →
      d.hasPriorityCol = true → d.hasArrivalCol = false →
      ∃ jobs, Prio.loadJobs d = .ok jobs ∧
        ∀ p ∈ jobs, (p.2 : Prio.JobState).arrival_ms = 0)
    ∧
    (∀ (d : Dataset) (r : CsvRow), d.hasJobIdCol = true →
      d.hasServiceCol = true → d.hasPriorityCol = true →
      d.hasArrivalCol = true → d.rows = [r] →
      Prio.loadJobs d = .ok [(r.job_id,
        { job_id := r.job_id, service_ms := r.service_time_ms,
          arrival_ms := r.arrival_time_ms, priority := r.priority })])
    ∧
    (∀ d : Dataset, d.hasArrivalCol = false →
      ∃ e, RR.loadJobs d = .error e)
    ∧
    (∀ (d : Dataset) (r : CsvRow), d.hasJobIdCol = true →
      d.hasServiceCol = true → d.rows = [r] →
      RRoot.loadJobs d = .ok [(r.job_id,
        { job_id := r.job_id, service_ms := r.service_time_ms,
          remaining_ms := r.service_time_ms, arrival_ms := 0 })])
    ∧
    (∀ (timeout : ℚ) (ws : List (String × Registry.WorkerInfo)) (nows : ℚ)
       (req : Fifo.StartReq) (d : Dataset)
       (jobs : List (String × Fifo.JobState)) (rid : String) (now_wall : Int)
       (active : Option Fifo.RunState),
      ¬ Registry.totalAliveSlots timeout ws nows < req.min_slots →
      Fifo.loadJobs d = .ok jobs →
      ∃ run1, Fifo.startStep timeout ws nows req (some (.ok d)) rid now_wall
          active = (.ok rid, some run1) ∧
        ∀ p ∈ jobs,
          (p.2.arrival_ms ≤ 0 → p.1 ∈ run1.ready_q) ∧
          (¬ p.2.arrival_ms ≤ 0 → p.1 ∈ run1.pending_jobs.map Prod.fst)) := by
  refine ⟨?_, ?_, ?_, ?_, ?_, ?_, ?_⟩
  · intro d hid hsvc harr
    refine ⟨d.rows.foldl
        (fun m row =>
          dictInsert m row.job_id
            { job_id := row.job_id
              service_ms := row.service_time_ms
              arrival_ms := if d.hasArrivalCol then row.arrival_time_ms else 0 })
        [], by simp [Fifo.loadJobs, hid, hsvc], ?_⟩
    refine foldl_dictInsert_forall _ _ _ d.rows [] (by simp) ?_
    intro r _
    simp [harr]
  · intro d r hid hsvc harr hrows
    simp [Fifo.loadJobs, hid, hsvc, harr, hrows, dictInsert]
  · intro d hid hsvc hprio harr
    refine ⟨d.rows.foldl
        (fun m row =>
          dictInsert m row.job_id
            { job_id := row.job_id
              service_ms := row.service_time_ms
              arrival_ms := if d.hasArrivalCol then row.arrival_time_ms else 0
              priority := row.priority })
        [], by simp [Prio.loadJobs, hid, hsvc, hprio], ?_⟩
    refine foldl_dictInsert_forall _ _ _ d.rows [] (by simp) ?_
    intro r _
    simp [harr]
  · intro d r hid hsvc hprio harr hrows
    simp [Prio.loadJobs, hid, hsvc, hprio, harr, hrows, dictInsert]
  · intro d harr
    refine ⟨"Dataset must contain at least arrival_time_ms, job_id, service_time_ms", ?_⟩
    simp [RR.loadJobs, harr]
  · intro d r hid hsvc hrows
    simp [RRoot.loadJobs, hid, hsvc, hrows, dictInsert]
  · intro timeout ws nows req d jobs rid now_wall active hge hload
    have hstep : Fifo.startStep timeout ws nows req (some (.ok d)) rid
        now_wall active
        = (.ok rid, some
            { run_id := rid, dataset_file := req.dataset_file,
              speedup := req.speedup, start_wall_ms := now_wall,
              jobs := jobs,
              ready_q := (jobs.filter (fun p => p.2.arrival_ms ≤ 0)).map Prod.fst,
              pending_jobs := jobs.filter (fun p => ¬ (p.2.arrival_ms ≤ 0)),
              total_jobs := jobs.length }) := by
      simp only [Fifo.startStep, hload]
      rw [if_neg hge]
    refine ⟨_, hstep, ?_⟩
    intro p hp
    constructor
    · intro hle
      exact List.mem_map_of_mem Prod.fst (List.mem_filter.mpr ⟨hp, by simpa using hle⟩)
    · intro hgt
      exact List.mem_map_of_mem Prod.fst (List.mem_filter.mpr ⟨hp, by simpa using hgt⟩)

/-- Witness for the amended C9: the FIFO loader defaults arrivals to 0 on
    a concrete arrival-free dataset; the root RR loader zeroes the
    arrival of a concrete row that carries arrival 7. -/
theorem C9_arrival_column_amended_witness :
    (∃ jobs, Fifo.loadJobs dsNoArrival = .ok jobs ∧
      ∀ p ∈ jobs, (p.2 : Fifo.JobState).arrival_ms = 0) ∧
    RRoot.loadJobs dsWithArrival
      = .ok [("A", { job_id := "A", service_ms := 5, remaining_ms := 5,
                     arrival_ms := 0 })] := by
  constructor
  · exact C9_arrival_column_amended.1 dsNoArrival rfl rfl rfl
  · exact C9_arrival_column_amended.2.2.2.2.2.1 dsWithArrival
      { job_id := "A", service_time_ms := 5, arrival_time_ms := 7,
        priority := 1 } rfl rfl rfl

end TaskSched
